import Mathlib

/-!
# Bigtable table-admin snippets: command dispatcher

A shallow embedding of `google/cloud/bigtable/examples/table_admin_snippets.cc`.

* `argc` is a C `int` and is an `Int` here; `argv` is the underlying array of
  C strings, a `List String` whose length never changes: `ConsumeArg` shifts
  entries to the left and decrements `argc`, it does not shrink the array.
* The administrative client library is external.  A `TableAdmin` is the handle
  the program builds (project id, instance id); what the service answers to each
  member call is given by a `Backend`, over which every theorem quantifies.
  A failing call throws an exception derived from `std::exception`, rendered
  here as `Except.error what` with `what` the text of `what()`.
* `std::cout` and `std::cerr` are the strings written; `std::endl` is `"\n"`.
* Reading `argv` at an index outside the array, or building a `std::string`
  from a null pointer, has no defined behaviour in C++; the embedding reports it
  as `Completion.undefined` (handlers) or `exit = none` (`main`).
-/

set_option maxRecDepth 100000

namespace TableAdminSnippets

/-! ## Data model -/

/-- The exception type `struct Usage { std::string msg; }`. -/
structure Usage where
  msg : String
deriving DecidableEq, Repr

/-- What a handler can throw: a `Usage`, or an exception derived from
`std::exception` coming out of the admin client (`what` is its `what()`). -/
inductive Thrown where
  | usage (u : Usage)
  | std_exception (what : String)
deriving DecidableEq, Repr

/-- How a call of a handler ends. -/
inductive Completion where
  | returned
  | threw (e : Thrown)
  | undefined
deriving DecidableEq, Repr

/-- Garbage collection rules built by the snippets (`GcRule::...`); `MaxAge` is in hours. -/
inductive GcRule where
  | MaxNumVersions (n : Nat)
  | MaxAge (hours : Nat)
  | Union (a b : GcRule)
  | Intersection (a b : GcRule)
deriving DecidableEq, Repr

/-- The three `ColumnFamilyModification` factories used by `ModifyTable`. -/
inductive ColumnFamilyModification where
  | Drop (family : String)
  | Update (family : String) (rule : GcRule)
  | Create (family : String) (rule : GcRule)
deriving DecidableEq, Repr

/-- The handle `google::cloud::bigtable::TableAdmin`, built from a project id
(through `CreateDefaultAdminClient`) and an instance id. -/
structure TableAdmin where
  project_id : String
  instance_id : String
deriving DecidableEq, Repr

/-- One member call on a `TableAdmin`, with the arguments the snippet passes. -/
inductive AdminCall where
  | CreateTable (table_id : String) (families : List (String × GcRule))
  | ListTables
  | GetTable (table_id : String)
  | DeleteTable (table_id : String)
  | ModifyColumnFamilies (table_id : String) (mods : List ColumnFamilyModification)
  | DropAllRows (table_id : String)
  | DropRowsByPrefix (table_id : String) (key : String)
  | GenerateConsistencyToken (table_id : String)
  | WaitForConsistencyCheck (table_id : String) (token : String)
  | CheckConsistency (table_id : String) (token : String)
  | GetSnapshot (cluster_id : String) (snapshot_id : String)
  | ListSnapshots (cluster_id : String)
  | DeleteSnapshot (cluster_id : String) (snapshot_id : String)
deriving DecidableEq, Repr

/-- The part of a `google::bigtable::admin::v2::Table` that `GetTable` prints: its name and,
for each column family in iteration order, the family name and the text
`TextFormat::PrintToString` produces for its gc rule. -/
structure Table where
  name : String
  column_families : List (String × String)
deriving DecidableEq, Repr

/-- The external service: what each member call on a `TableAdmin` answers.
`Except.error what` is a thrown `std::exception`.  Values the snippets never
look at (the schema `CreateTable` returns) are `Unit`; `ModifyColumnFamilies`
answers the schema as `TextFormat::PrintToString` renders it; table and snapshot
lists are the lists of their names; `WaitForConsistencyCheck` answers what
`get()` on the returned future yields. -/
structure Backend where
  CreateTable : TableAdmin → String → List (String × GcRule) → Except String Unit
  ListTables : TableAdmin → Except String (List String)
  GetTable : TableAdmin → String → Except String Table
  DeleteTable : TableAdmin → String → Except String Unit
  ModifyColumnFamilies : TableAdmin → String → List ColumnFamilyModification → Except String String
  DropAllRows : TableAdmin → String → Except String Unit
  DropRowsByPrefix : TableAdmin → String → String → Except String Unit
  GenerateConsistencyToken : TableAdmin → String → Except String String
  WaitForConsistencyCheck : TableAdmin → String → String → Except String Bool
  CheckConsistency : TableAdmin → String → String → Except String Bool
  GetSnapshot : TableAdmin → String → String → Except String String
  ListSnapshots : TableAdmin → String → Except String (List String)
  DeleteSnapshot : TableAdmin → String → String → Except String Unit

/-- What running a handler produced: how it ended, what it wrote to
`std::cout`, the member calls it made on the admin client in order, and the
`argv` array as it left it (handlers shift the caller's array in place). -/
structure Run where
  status : Completion
  out : String
  calls : List AdminCall
  argv : List String

/-- The signature `void(TableAdmin, int, char*[])` of a command, with the service
made explicit. -/
abbrev CommandType := Backend → TableAdmin → Int → List String → Run

/-! ## `ConsumeArg` -/

/-- The loop of `std::copy`: `n` times, store the element at `src` into `dst`
and advance both.  A read outside the array stops the loop. -/
def copyLoop (a : List String) (src dst : Nat) : Nat → List String
  | 0 => a
  | n + 1 =>
    match a[src]? with
    | some v => copyLoop (a.set dst v) (src + 1) (dst + 1) n
    | none => a

/-- Model of `std::copy(a + first, a + last, a + d_first)` inside one array. -/
def stdCopy (a : List String) (first last d_first : Nat) : List String :=
  copyLoop a first d_first (last - first)

/-- What `ConsumeArg` hands back: the returned pointer (`none` is `nullptr`,
or a read of `argv[1]` outside the array), and `argc`, `argv` after the call. -/
structure Consumed where
  result : Option String
  argc : Int
  argv : List String
deriving DecidableEq, Repr

/-- Embedding of `char const* ConsumeArg(int& argc, char* argv[])`. -/
def ConsumeArg (argc : Int) (argv : List String) : Consumed :=
  if argc < 2 then
    { result := none, argc := argc, argv := argv }
  else
    { result := argv[1]?,
      argc := argc - 1,
      argv := stdCopy argv 2 argc.toNat 1 }

/-! ## `PrintUsage` -/

/-- The constant `std::string::npos`, the largest `size_t`. -/
def npos : Nat := 2 ^ 64 - 1

/-- Scan of `find_last_of`: `i` is the index of the head, `acc` the last hit so far. -/
def findLastFrom (ch : Char) : List Char → Nat → Nat → Nat
  | [], _, acc => acc
  | c :: cs, i, acc => findLastFrom ch cs (i + 1) (if c = ch then i else acc)

/-- Model of `std::string::find_last_of(ch)`: the last index holding `ch`, or `npos`. -/
def find_last_of (s : String) (ch : Char) : Nat :=
  findLastFrom ch s.data 0 npos

/-- Model of `std::string::substr(pos)` for `pos` not beyond the end. -/
def substr (s : String) (pos : Nat) : String :=
  String.mk (s.data.drop pos)

/-- Embedding of `PrintUsage`: the text written to `std::cerr`, given the
global `command_usage`.  `none` when `argv[0]` cannot be read.  The sum
`last_slash + 1` is taken in `size_t`, so `npos + 1` is `0`. -/
def PrintUsage (argv : List String) (msg : String) (command_usage : String) : Option String :=
  match argv[0]? with
  | none => none
  | some cmd =>
    let last_slash := find_last_of cmd '/'
    let program := substr cmd ((last_slash + 1) % 2 ^ 64)
    some (msg ++ "\nUsage: " ++ program ++ " <command> [arguments]\n\n"
      ++ "Commands:\n" ++ command_usage ++ "\n")

/-! ## The twelve handlers -/

/-- The result of `throw Usage{msg}` before anything was written or called. -/
def throwUsage (msg : String) (argv : List String) : Run :=
  { status := .threw (.usage ⟨msg⟩), out := "", calls := [], argv := argv }

/-- Ending of a handler after its member calls: a thrown client exception with
the text written so far, or a normal return. -/
def finish (r : Except String String) (pre : String) (calls : List AdminCall)
    (argv : List String) : Run :=
  match r with
  | .error what => { status := .threw (.std_exception what), out := pre, calls := calls, argv := argv }
  | .ok text => { status := .returned, out := pre ++ text, calls := calls, argv := argv }

/-- Embedding of `CreateTable`. -/
def CreateTable : CommandType := fun b admin argc argv =>
  if argc ≠ 2 then
    throwUsage "create-table: <project-id> <instanse-id> <table-id>" argv
  else
    let a := ConsumeArg argc argv
    match a.result with
    | none => { status := .undefined, out := "", calls := [], argv := a.argv }
    | some table_id =>
      let families := [("fam", GcRule.MaxNumVersions 10), ("foo", GcRule.MaxAge 72)]
      finish ((b.CreateTable admin table_id families).map fun _ => "") ""
        [.CreateTable table_id families] a.argv

/-- Embedding of `ListTables`. -/
def ListTables : CommandType := fun b admin argc argv =>
  if argc ≠ 1 then
    throwUsage "list-tables: <project-id> <instanse-id>" argv
  else
    finish ((b.ListTables admin).map fun tables => String.join (tables.map fun name => name ++ "\n"))
      "" [.ListTables] argv

/-- Embedding of `GetTable`. -/
def GetTable : CommandType := fun b admin argc argv =>
  if argc ≠ 2 then
    throwUsage "get-table: <project-id> <instanse-id> <table-id>" argv
  else
    let a := ConsumeArg argc argv
    match a.result with
    | none => { status := .undefined, out := "", calls := [], argv := a.argv }
    | some table_id =>
      finish ((b.GetTable admin table_id).map fun table =>
          table.name ++ "\n" ++ String.join (table.column_families.map fun family =>
            "\t" ++ family.1 ++ "\t\t" ++ family.2 ++ "\n"))
        "" [.GetTable table_id] a.argv

/-- Embedding of `DeleteTable`. -/
def DeleteTable : CommandType := fun b admin argc argv =>
  if argc ≠ 2 then
    throwUsage "delete-table: <project-id> <instanse-id> <table-id>" argv
  else
    let a := ConsumeArg argc argv
    match a.result with
    | none => { status := .undefined, out := "", calls := [], argv := a.argv }
    | some table_id =>
      finish ((b.DeleteTable admin table_id).map fun _ => "") "" [.DeleteTable table_id] a.argv

/-- Embedding of `ModifyTable`. -/
def ModifyTable : CommandType := fun b admin argc argv =>
  if argc ≠ 2 then
    throwUsage "modify-table: <project-id> <instanse-id> <table-id>" argv
  else
    let a := ConsumeArg argc argv
    match a.result with
    | none => { status := .undefined, out := "", calls := [], argv := a.argv }
    | some table_id =>
      let mods := [ColumnFamilyModification.Drop "foo",
        ColumnFamilyModification.Update "fam"
          (GcRule.Union (GcRule.MaxNumVersions 5) (GcRule.MaxAge (24 * 7))),
        ColumnFamilyModification.Create "bar"
          (GcRule.Intersection (GcRule.MaxNumVersions 3) (GcRule.MaxAge 72))]
      finish ((b.ModifyColumnFamilies admin table_id mods).map fun formatted =>
          "Schema modified to: " ++ formatted ++ "\n")
        "" [.ModifyColumnFamilies table_id mods] a.argv

/-- Embedding of `DropAllRows`. -/
def DropAllRows : CommandType := fun b admin argc argv =>
  if argc ≠ 2 then
    throwUsage "drop-all-rows: <project-id> <instanse-id> <table-id>" argv
  else
    let a := ConsumeArg argc argv
    match a.result with
    | none => { status := .undefined, out := "", calls := [], argv := a.argv }
    | some table_id =>
      finish ((b.DropAllRows admin table_id).map fun _ => "") "" [.DropAllRows table_id] a.argv

/-- Embedding of `DropRowsByPrefix`. -/
def DropRowsByPrefix : CommandType := fun b admin argc argv =>
  if argc ≠ 2 then
    throwUsage "drop-rows-by-prefix: <project-id> <instanse-id> <table-id>" argv
  else
    let a := ConsumeArg argc argv
    match a.result with
    | none => { status := .undefined, out := "", calls := [], argv := a.argv }
    | some table_id =>
      finish ((b.DropRowsByPrefix admin table_id "key-00004").map fun _ => "") ""
        [.DropRowsByPrefix table_id "key-00004"] a.argv

/-- Embedding of `WaitForConsistencyCheck`. -/
def WaitForConsistencyCheck : CommandType := fun b admin argc argv =>
  if argc ≠ 2 then
    throwUsage "wait-for-consistency-check: <project-id> <instanse-id> <table-id>" argv
  else
    let a := ConsumeArg argc argv
    match a.result with
    | none => { status := .undefined, out := "", calls := [], argv := a.argv }
    | some table_id =>
      match b.GenerateConsistencyToken admin table_id with
      | .error what =>
        { status := .threw (.std_exception what), out := "",
          calls := [.GenerateConsistencyToken table_id], argv := a.argv }
      | .ok consistency_token =>
        finish ((b.WaitForConsistencyCheck admin table_id consistency_token).map fun result =>
            if result then "Table is consistent\n" else "Table is not consistent\n")
          ""
          [.GenerateConsistencyToken table_id,
           .WaitForConsistencyCheck table_id consistency_token]
          a.argv

/-- Embedding of `CheckConsistency`.  The trailing `std::flush` writes nothing. -/
def CheckConsistency : CommandType := fun b admin argc argv =>
  if argc ≠ 3 then
    throwUsage "check-consistency: <project-id> <instanse-id> <table-id> <consistency_token" argv
  else
    let a := ConsumeArg argc argv
    match a.result with
    | none => { status := .undefined, out := "", calls := [], argv := a.argv }
    | some table_id =>
      let a2 := ConsumeArg a.argc a.argv
      match a2.result with
      | none => { status := .undefined, out := "", calls := [], argv := a2.argv }
      | some consistency_token =>
        finish ((b.CheckConsistency admin table_id consistency_token).map fun result =>
            if result then "Table is consistent\n"
            else "Table is not yet consistent, Please Try again Later with the same Token!")
          "" [.CheckConsistency table_id consistency_token] a2.argv

/-- Embedding of `GetSnapshot`. -/
def GetSnapshot : CommandType := fun b admin argc argv =>
  if argc ≠ 3 then
    throwUsage "get-snapshot: <project-id> <instanse-id> <cluster-id> <snapshot-id" argv
  else
    let a := ConsumeArg argc argv
    match a.result with
    | none => { status := .undefined, out := "", calls := [], argv := a.argv }
    | some cluster_id =>
      let a2 := ConsumeArg a.argc a.argv
      match a2.result with
      | none => { status := .undefined, out := "", calls := [], argv := a2.argv }
      | some snapshot_id =>
        finish ((b.GetSnapshot admin cluster_id snapshot_id).map fun name =>
            "GetSnapshot name : " ++ name ++ "\n")
          "" [.GetSnapshot cluster_id snapshot_id] a2.argv

/-- Embedding of `ListSnapshots`. -/
def ListSnapshots : CommandType := fun b admin argc argv =>
  if argc ≠ 2 then
    throwUsage "list-snapshot: <project-id> <instanse-id> <cluster-id>" argv
  else
    let a := ConsumeArg argc argv
    match a.result with
    | none => { status := .undefined, out := "", calls := [], argv := a.argv }
    | some cluster_id =>
      finish ((b.ListSnapshots admin cluster_id).map fun snapshot_list =>
          "Snapshot Name List\n" ++ String.join (snapshot_list.map fun name =>
            "Snapshot Name:" ++ name ++ "\n"))
        "" [.ListSnapshots cluster_id] a.argv

/-- Embedding of `DeleteSnapshot`. -/
def DeleteSnapshot : CommandType := fun b admin argc argv =>
  if argc ≠ 3 then
    throwUsage "delete-snapshot: <project-id> <instanse-id> <cluster-id> <snapshot-id" argv
  else
    let a := ConsumeArg argc argv
    match a.result with
    | none => { status := .undefined, out := "", calls := [], argv := a.argv }
    | some cluster_id =>
      let a2 := ConsumeArg a.argc a.argv
      match a2.result with
      | none => { status := .undefined, out := "", calls := [], argv := a2.argv }
      | some snapshot_id =>
        finish ((b.DeleteSnapshot admin cluster_id snapshot_id).map fun _ => "") ""
          [.DeleteSnapshot cluster_id snapshot_id] a2.argv

/-! ## The command table (`std::map<std::string, CommandType>`) -/

/-- Lexicographic comparison of character sequences by character code, as
`std::string::compare` orders them. -/
def lexLess : List Char → List Char → Bool
  | _, [] => false
  | [], _ :: _ => true
  | a :: as, b :: bs =>
    if a.toNat < b.toNat then true
    else if b.toNat < a.toNat then false
    else lexLess as bs

/-- The ordering `std::less<std::string>` of the map's keys. -/
def keyLess (a b : String) : Bool :=
  lexLess a.data b.data

/-- Insertion into a `std::map`, kept as the list of its entries in iteration
order (ascending keys).  An entry whose key is already present is not inserted. -/
def mapInsert (kv : String × CommandType) :
    List (String × CommandType) → List (String × CommandType)
  | [] => [kv]
  | x :: xs =>
    if keyLess kv.1 x.1 then kv :: x :: xs
    else if keyLess x.1 kv.1 then x :: mapInsert kv xs
    else x :: xs

/-- Model of `std::map::find`: the handler stored under `k`, `none` for `end()`. -/
def mapFind : List (String × CommandType) → String → Option CommandType
  | [], _ => none
  | x :: xs, k => if x.1 = k then some x.2 else mapFind xs k

/-- The initializer list of `commands` in `main`, in the order it is written. -/
def registrations : List (String × CommandType) :=
  [("create-table", CreateTable),
   ("list-tables", ListTables),
   ("get-table", GetTable),
   ("delete-table", DeleteTable),
   ("modify-table", ModifyTable),
   ("drop-all-rows", DropAllRows),
   ("drop-rows-by-prefix", DropRowsByPrefix),
   ("wait-for-consistency-check", WaitForConsistencyCheck),
   ("check-consistency", CheckConsistency),
   ("get-snapshot", GetSnapshot),
   ("list-snapshot", ListSnapshots),
   ("delete-snapshot", DeleteSnapshot)]

/-- The map `commands`: the initializer list inserted entry by entry. -/
def commands : List (String × CommandType) :=
  registrations.foldl (fun m kv => mapInsert kv m) []

/-! ## `main` -/

/-- One call of a handler by `main`: the key it is stored under, the client
passed, and `argc`, `argv` on entry. -/
structure Invocation where
  name : String
  admin : TableAdmin
  argc : Int
  argv : List String
deriving DecidableEq, Repr

/-- State of the loop that forces each command to produce its usage string. -/
structure ProbeState where
  command_usage : String
  out : String
  calls : List AdminCall
  invocations : List Invocation
  argv : List String
  defined : Bool

/-- Everything observable of one run of `main`: the exit status (`none` when the
run has no defined behaviour), the text on `std::cerr` and `std::cout`, the
global `command_usage` at the end, the admin clients constructed in order, the
handler calls in order, and the member calls made on admin clients. -/
structure MainResult where
  exit : Option Nat
  err : String
  out : String
  command_usage : String
  clients : List TableAdmin
  invocations : List Invocation
  calls : List AdminCall

/-- The throwaway client `unused` of the usage-harvesting block. -/
def unused : TableAdmin :=
  { project_id := "unused-project", instance_id := "Unused-instance" }

/-- One iteration of `for (auto&& kv : commands)`: call the handler with
`fake_argc = 0`; a `Usage` appends one line to `command_usage`, any other
exception is ignored. -/
def probeStep (b : Backend) (s : ProbeState) (kv : String × CommandType) : ProbeState :=
  let r := kv.2 b unused 0 s.argv
  { command_usage :=
      match r.status with
      | .threw (.usage u) => s.command_usage ++ "    " ++ u.msg ++ "\n"
      | _ => s.command_usage,
    out := s.out ++ r.out,
    calls := s.calls ++ r.calls,
    invocations := s.invocations ++ [⟨kv.1, unused, 0, s.argv⟩],
    argv := r.argv,
    defined := s.defined && decide (r.status ≠ .undefined) }

/-- The usage-harvesting loop over the map, in iteration order, starting from
the empty global `command_usage`. -/
def probeAll (b : Backend) (argv : List String) : ProbeState :=
  commands.foldl (probeStep b)
    { command_usage := "", out := "", calls := [], invocations := [], argv := argv, defined := true }

/-- The run after the harvesting loop `p`, ended with status `exit` and `err` on
`std::cerr`, having constructed the clients `extra` and made the handler calls
`inv` after the loop, which wrote `out` and made the client calls `calls`. -/
def endRun (p : ProbeState) (exit : Option Nat) (err : String) (extra : List TableAdmin)
    (inv : List Invocation) (out : String) (calls : List AdminCall) : MainResult :=
  { exit := exit, err := err, out := p.out ++ out, command_usage := p.command_usage,
    clients := unused :: extra, invocations := p.invocations ++ inv, calls := p.calls ++ calls }

/-- Embedding of `main(argc, argv)` with `argc` the number of entries of `argv`. -/
def main (b : Backend) (argv : List String) : MainResult :=
  let argc : Int := argv.length
  let p := probeAll b argv
  if p.defined = false then endRun p none "" [] [] "" []
  else if argc < 4 then
    match PrintUsage p.argv "Missing command and/or project-id/ or instance-id" p.command_usage with
    | none => endRun p none "" [] [] "" []
    | some text => endRun p (some 1) text [] [] "" []
  else
    let a1 := ConsumeArg argc p.argv
    let a2 := ConsumeArg a1.argc a1.argv
    let a3 := ConsumeArg a2.argc a2.argv
    match a1.result, a2.result, a3.result with
    | some command_name, some project_id, some instance_id =>
      match mapFind commands command_name with
      | none =>
        match PrintUsage a3.argv ("Unknown command: " ++ command_name) p.command_usage with
        | none => endRun p none "" [] [] "" []
        | some text => endRun p (some 1) text [] [] "" []
      | some command =>
        let admin : TableAdmin := { project_id := project_id, instance_id := instance_id }
        let inv : Invocation := ⟨command_name, admin, a3.argc, a3.argv⟩
        let r := command b admin a3.argc a3.argv
        match r.status with
        | .returned => endRun p (some 0) "" [admin] [inv] r.out r.calls
        | .threw (.usage ex) =>
          match PrintUsage r.argv ex.msg p.command_usage with
          | none => endRun p none "" [admin] [inv] r.out r.calls
          | some text => endRun p (some 1) text [admin] [inv] r.out r.calls
        | .threw (.std_exception what) =>
          endRun p (some 1) ("Standard C++ exception raised: " ++ what ++ "\n") [admin] [inv]
            r.out r.calls
        | .undefined => endRun p none "" [admin] [inv] r.out r.calls
    | _, _, _ => endRun p none "" [] [] "" []

/-! ## Vocabulary of the statements -/

/-- The text `part` occurs in `text` as a contiguous run of characters. -/
@[reducible] def Contains (text part : String) : Prop :=
  part.data <:+: text.data

/-- The text `text` begins with `part`. -/
@[reducible] def StartsWith (text part : String) : Prop :=
  part.data <+: text.data

/-- Left-to-right scan for an occurrence of `part` in `text`: at each position,
test whether `part` begins there. -/
def occursIn (part : List Char) : List Char → Bool
  | [] => part.isEmpty
  | c :: cs => part.isPrefixOf (c :: cs) || occursIn part cs

/-- Concatenation of a list of pieces, left to right. -/
def concat (pieces : List String) : String :=
  pieces.foldl (fun acc s => acc ++ s) ""

/-- `argc` and `argv` as `main` holds them after its three calls of `ConsumeArg`
(command name, project id, instance id), which is what it passes to the handler. -/
def dispatchArgs (argv : List String) : Consumed :=
  let a1 := ConsumeArg argv.length argv
  let a2 := ConsumeArg a1.argc a1.argv
  ConsumeArg a2.argc a2.argv

/-- The run of handler `h` as `main` dispatches it on the argument vector
`argv`: on the real client for project `p` and instance `i`, with the arguments
left after the three calls of `ConsumeArg`. -/
def dispatchRun (b : Backend) (h : CommandType) (p i : String) (argv : List String) : Run :=
  h b ⟨p, i⟩ (dispatchArgs argv).argc (dispatchArgs argv).argv

/-- The handler call `main` makes when it dispatches the command `cmd`. -/
def dispatchInvocation (cmd p i : String) (argv : List String) : Invocation :=
  ⟨cmd, ⟨p, i⟩, (dispatchArgs argv).argc, (dispatchArgs argv).argv⟩

/-- The handler calls of the usage-harvesting loop: one per entry of the map in
iteration order, each on the throwaway client with `fake_argc = 0`. -/
def probeInvocations (argv : List String) : List Invocation :=
  commands.map fun kv => ⟨kv.1, unused, 0, argv⟩

/-- A service on which every call fails; used only to run a handler on its
argument-count check, which comes before any call. -/
def deadBackend : Backend :=
  { CreateTable := fun _ _ _ => .error "unused",
    ListTables := fun _ => .error "unused",
    GetTable := fun _ _ => .error "unused",
    DeleteTable := fun _ _ => .error "unused",
    ModifyColumnFamilies := fun _ _ _ => .error "unused",
    DropAllRows := fun _ _ => .error "unused",
    DropRowsByPrefix := fun _ _ _ => .error "unused",
    GenerateConsistencyToken := fun _ _ => .error "unused",
    WaitForConsistencyCheck := fun _ _ _ => .error "unused",
    CheckConsistency := fun _ _ _ => .error "unused",
    GetSnapshot := fun _ _ _ => .error "unused",
    ListSnapshots := fun _ _ => .error "unused",
    DeleteSnapshot := fun _ _ _ => .error "unused" }

/-- The message of the `Usage` a handler throws when called with no arguments
(`""` if it throws none). -/
def usageOf (h : CommandType) : String :=
  match (h deadBackend unused 0 []).status with
  | .threw (.usage u) => u.msg
  | _ => ""

/-- One line of the aggregate usage text for a handler: four spaces, its usage
message, a newline. -/
def usageLine (kv : String × CommandType) : String :=
  "    " ++ usageOf kv.2 ++ "\n"

/-- The argument count each command expects, as the specification lists them. -/
def expectedArgc (name : String) : Int :=
  if name = "list-tables" then 1
  else if name = "check-consistency" ∨ name = "get-snapshot" ∨ name = "delete-snapshot" then 3
  else 2

/-- A run of `main` printed the aggregate usage text: `std::cerr` holds the
`Commands:` header followed by the global `command_usage`. -/
@[reducible] def PrintsAggregateUsage (r : MainResult) : Prop :=
  Contains r.err ("Commands:\n" ++ r.command_usage ++ "\n")

/-- The text `PrintUsage` writes to `std::cerr` when `argv[0]` is `prog`. -/
def usageReport (prog msg command_usage : String) : String :=
  (PrintUsage [prog] msg command_usage).getD ""

/-- The aggregate usage text the harvesting loop builds: one line per entry of
the map, in the map's iteration order. -/
def aggregateUsage : String :=
  concat (commands.map usageLine)

/-- The aggregate usage text as it would read with one line per command in the
order of the initializer list (`create-table` first, `delete-snapshot` last). -/
def registrationOrderUsage : String :=
  concat (registrations.map usageLine)

/-- A service that answers every call successfully with fixed values. -/
def sampleBackend : Backend :=
  { CreateTable := fun _ _ _ => .ok (),
    ListTables := fun _ => .ok ["t1", "t2"],
    GetTable := fun _ t => .ok ⟨t, [("fam", "max_num_versions: 10")]⟩,
    DeleteTable := fun _ _ => .ok (),
    ModifyColumnFamilies := fun _ t _ => .ok t,
    DropAllRows := fun _ _ => .ok (),
    DropRowsByPrefix := fun _ _ _ => .ok (),
    GenerateConsistencyToken := fun _ _ => .ok "token",
    WaitForConsistencyCheck := fun _ _ _ => .ok true,
    CheckConsistency := fun _ _ _ => .ok false,
    GetSnapshot := fun _ _ s => .ok s,
    ListSnapshots := fun _ _ => .ok ["s1"],
    DeleteSnapshot := fun _ _ _ => .ok () }

/-- A service on which deleting a table is refused and every other call succeeds. -/
def refusingBackend : Backend :=
  { sampleBackend with DeleteTable := fun _ _ => .error "permission denied" }

/-! ## `ConsumeArg`: the shift of the argument array -/

theorem copyLoop_length (n : Nat) : ∀ (a : List String) (src dst : Nat),
    (copyLoop a src dst n).length = a.length := by
  induction n with
  | zero => intro a src dst; rfl
  | succ n ih =>
    intro a src dst
    simp only [copyLoop]
    cases h : a[src]? with
    | none => rfl
    | some v => simp [ih]

theorem copyLoop_getElem? (n : Nat) : ∀ (a : List String) (d : Nat), d + 1 + n ≤ a.length →
    ∀ k, (copyLoop a (d + 1) d n)[k]? = if d ≤ k ∧ k < d + n then a[k + 1]? else a[k]? := by
  induction n with
  | zero =>
    intro a d _ k
    have : ¬ (d ≤ k ∧ k < d + 0) := by omega
    simp only [copyLoop]
    rw [if_neg this]
  | succ n ih =>
    intro a d hlen k
    have hd : d + 1 < a.length := by omega
    simp only [copyLoop, List.getElem?_eq_getElem hd]
    rw [ih (a.set d a[d + 1]) (d + 1) (by simp; omega) k]
    by_cases h1 : d + 1 ≤ k ∧ k < d + 1 + n
    · have h2 : d ≤ k ∧ k < d + (n + 1) := by omega
      rw [if_pos h1, if_pos h2, List.getElem?_set_ne (by omega)]
    · rw [if_neg h1]
      by_cases h3 : k = d
      · subst h3
        have h2 : k ≤ k ∧ k < k + (n + 1) := by omega
        rw [if_pos h2, List.getElem?_set_self (by omega), List.getElem?_eq_getElem hd]
      · have h2 : ¬ (d ≤ k ∧ k < d + (n + 1)) := by omega
        rw [if_neg h2, List.getElem?_set_ne (by omega)]

/-- C10. `ConsumeArg` on an argument list of count `argc` held in an array of at
least `argc` entries: when `argc >= 2` it returns the old `argv[1]`, decrements
`argc` by exactly 1, leaves `argv[0]` unchanged and sets the new `argv[k]` to the
old `argv[k+1]` for `1 <= k < argc-1`; when `argc < 2` it returns the null
pointer and leaves `argc` and the array unchanged. -/
theorem ConsumeArg_spec (argc : Int) (argv : List String) (hlen : argc ≤ argv.length) :
    (2 ≤ argc →
      (∃ first, argv[1]? = some first ∧ (ConsumeArg argc argv).result = some first) ∧
      (ConsumeArg argc argv).argc = argc - 1 ∧
      (ConsumeArg argc argv).argv[0]? = argv[0]? ∧
      (ConsumeArg argc argv).argv.length = argv.length ∧
      ∀ k : Nat, 1 ≤ k → (k : Int) < argc - 1 →
        (ConsumeArg argc argv).argv[k]? = argv[k + 1]?) ∧
    (argc < 2 →
      ConsumeArg argc argv = { result := none, argc := argc, argv := argv }) := by
  constructor
  · intro h2
    have hnot : ¬ argc < 2 := by omega
    have h1 : 1 < argv.length := by omega
    have hb : 1 + 1 + (argc.toNat - 2) ≤ argv.length := by omega
    have e : ConsumeArg argc argv
        = { result := argv[1]?, argc := argc - 1, argv := copyLoop argv 2 1 (argc.toNat - 2) } := by
      simp only [ConsumeArg, if_neg hnot, stdCopy]
    rw [e]
    refine ⟨⟨argv[1], List.getElem?_eq_getElem h1, List.getElem?_eq_getElem h1⟩, rfl, ?_, ?_, ?_⟩
    · rw [copyLoop_getElem? _ argv 1 hb 0]
      simp
    · exact copyLoop_length _ _ _ _
    · intro k hk1 hk2
      rw [copyLoop_getElem? _ argv 1 hb k]
      have : 1 ≤ k ∧ k < 1 + (argc.toNat - 2) := by omega
      rw [if_pos this]
  · intro h
    simp [ConsumeArg, h]

/-- Witness of C10 on a five-entry argument list: both branches, evaluated. -/
theorem ConsumeArg_spec_witness :
    ConsumeArg 5 ["prog", "cmd", "p", "i", "x"]
        = { result := some "cmd", argc := 4, argv := ["prog", "p", "i", "x", "x"] } ∧
      ((∃ first, ["prog", "cmd", "p", "i", "x"][1]? = some first ∧
          (ConsumeArg 5 ["prog", "cmd", "p", "i", "x"]).result = some first) ∧
        (ConsumeArg 5 ["prog", "cmd", "p", "i", "x"]).argc = 5 - 1 ∧
        (ConsumeArg 5 ["prog", "cmd", "p", "i", "x"]).argv[0]? = ["prog", "cmd", "p", "i", "x"][0]? ∧
        (ConsumeArg 5 ["prog", "cmd", "p", "i", "x"]).argv.length
          = ["prog", "cmd", "p", "i", "x"].length ∧
        ∀ k : Nat, 1 ≤ k → (k : Int) < 5 - 1 →
          (ConsumeArg 5 ["prog", "cmd", "p", "i", "x"]).argv[k]?
            = ["prog", "cmd", "p", "i", "x"][k + 1]?) ∧
      ConsumeArg 1 ["prog"] = { result := none, argc := 1, argv := ["prog"] } :=
  ⟨by decide,
   (ConsumeArg_spec 5 ["prog", "cmd", "p", "i", "x"] (by decide)).1 (by decide),
   (ConsumeArg_spec 1 ["prog"] (by decide)).2 (by decide)⟩

/-! ## The command table and the argument-count checks -/

theorem commands_eq : commands =
    [("check-consistency", CheckConsistency),
     ("create-table", CreateTable),
     ("delete-snapshot", DeleteSnapshot),
     ("delete-table", DeleteTable),
     ("drop-all-rows", DropAllRows),
     ("drop-rows-by-prefix", DropRowsByPrefix),
     ("get-snapshot", GetSnapshot),
     ("get-table", GetTable),
     ("list-snapshot", ListSnapshots),
     ("list-tables", ListTables),
     ("modify-table", ModifyTable),
     ("wait-for-consistency-check", WaitForConsistencyCheck)] := rfl

theorem mapFind_mem : ∀ (m : List (String × CommandType)) (k : String) (h : CommandType),
    mapFind m k = some h → (k, h) ∈ m := by
  intro m
  induction m with
  | nil => intro k h hf; simp [mapFind] at hf
  | cons x xs ih =>
    intro k h hf
    simp only [mapFind] at hf
    by_cases hx : x.1 = k
    · rw [if_pos hx] at hf
      have hx2 : x.2 = h := Option.some.inj hf
      have : x = (k, h) := Prod.ext hx hx2
      rw [this]
      exact List.mem_cons_self _ _
    · rw [if_neg hx] at hf
      exact List.mem_cons_of_mem _ (ih k h hf)

/-- Every handler of the table, called with an argument count other than the
one it expects, throws its usage message before doing anything else. -/
theorem handler_wrong_count : ∀ kv ∈ commands, ∀ (b : Backend) (admin : TableAdmin)
    (argc : Int) (argv : List String), argc ≠ expectedArgc kv.1 →
    kv.2 b admin argc argv = throwUsage (usageOf kv.2) argv := by
  intro kv hkv
  rw [commands_eq] at hkv
  simp only [List.mem_cons, List.mem_singleton, List.not_mem_nil, or_false] at hkv
  rcases hkv with rfl | rfl | rfl | rfl | rfl | rfl | rfl | rfl | rfl | rfl | rfl | rfl <;>
    intro b admin argc argv hne <;>
    simp [expectedArgc] at hne <;>
    simp [CheckConsistency, CreateTable, DeleteSnapshot, DeleteTable, DropAllRows,
      DropRowsByPrefix, GetSnapshot, GetTable, ListSnapshots, ListTables, ModifyTable,
      WaitForConsistencyCheck, hne, usageOf, throwUsage]

/-- The expected counts are all positive, so a call with no arguments is a
call with the wrong count. -/
theorem expectedArgc_ne_zero (name : String) : (0 : Int) ≠ expectedArgc name := by
  unfold expectedArgc
  split
  · decide
  · split <;> decide

/-- Each usage message begins with the key its handler is stored under. -/
theorem usage_starts_with_name : ∀ kv ∈ commands, StartsWith (usageOf kv.2) kv.1 := by
  intro kv hkv
  rw [commands_eq] at hkv
  simp only [List.mem_cons, List.mem_singleton, List.not_mem_nil, or_false] at hkv
  rcases hkv with rfl | rfl | rfl | rfl | rfl | rfl | rfl | rfl | rfl | rfl | rfl | rfl <;>
    decide

/-! ## The usage-harvesting loop -/

theorem foldl_append_init (l : List String) : ∀ s : String,
    l.foldl (fun acc t => acc ++ t) s = s ++ concat l := by
  induction l with
  | nil => intro s; simp [concat]
  | cons x xs ih =>
    intro s
    simp only [concat, List.foldl_cons]
    rw [ih (s ++ x), ih ("" ++ x), String.empty_append, String.append_assoc]

theorem concat_cons (x : String) (l : List String) : concat (x :: l) = x ++ concat l := by
  simp only [concat, List.foldl_cons]
  rw [foldl_append_init, String.empty_append]
  rfl

theorem probeStep_usage (b : Backend) (s : ProbeState) (kv : String × CommandType)
    (h : ∀ (b : Backend) (admin : TableAdmin) (argv : List String),
      kv.2 b admin 0 argv = throwUsage (usageOf kv.2) argv) :
    probeStep b s kv =
      { command_usage := s.command_usage ++ usageLine kv, out := s.out, calls := s.calls,
        invocations := s.invocations ++ [⟨kv.1, unused, 0, s.argv⟩], argv := s.argv,
        defined := s.defined } := by
  simp only [probeStep, h, throwUsage, usageLine, String.append_assoc, String.append_empty,
    List.append_nil]
  simp

theorem probe_fold (b : Backend) (l : List (String × CommandType))
    (hl : ∀ kv ∈ l, ∀ (b : Backend) (admin : TableAdmin) (argv : List String),
      kv.2 b admin 0 argv = throwUsage (usageOf kv.2) argv) :
    ∀ s : ProbeState, l.foldl (probeStep b) s =
      { command_usage := s.command_usage ++ concat (l.map usageLine), out := s.out,
        calls := s.calls,
        invocations := s.invocations ++ l.map (fun kv => ⟨kv.1, unused, 0, s.argv⟩),
        argv := s.argv, defined := s.defined } := by
  induction l with
  | nil =>
    intro s
    simp [concat]
  | cons x xs ih =>
    intro s
    have hx := probeStep_usage b s x (hl x (List.mem_cons_self _ _))
    have hxs := ih (fun kv hkv => hl kv (List.mem_cons_of_mem _ hkv))
    simp only [List.foldl_cons, hx, hxs, List.map_cons, concat_cons, String.append_assoc,
      List.append_assoc, List.singleton_append]

/-- The harvesting loop makes no call and writes nothing: it leaves the
aggregate usage text in `command_usage` and `argv` as it found it. -/
theorem probeAll_eq (b : Backend) (argv : List String) :
    probeAll b argv =
      { command_usage := aggregateUsage, out := "", calls := [],
        invocations := probeInvocations argv, argv := argv, defined := true } := by
  have h := probe_fold b commands
    (fun kv hkv b admin argv =>
      handler_wrong_count kv hkv b admin 0 argv (expectedArgc_ne_zero kv.1))
    { command_usage := "", out := "", calls := [], invocations := [], argv := argv,
      defined := true }
  simp only [String.empty_append, List.nil_append] at h
  exact h

/-! ## `PrintUsage` and the arguments at dispatch -/

theorem usageReport_eq (prog msg cu : String) :
    usageReport prog msg cu =
      msg ++ "\nUsage: " ++ substr prog ((find_last_of prog '/' + 1) % 2 ^ 64)
        ++ " <command> [arguments]\n\n" ++ "Commands:\n" ++ cu ++ "\n" := by
  simp only [usageReport, PrintUsage, List.getElem?_cons_zero, Option.getD_some]

theorem PrintUsage_cons (prog : String) (rest : List String) (msg cu : String) :
    PrintUsage (prog :: rest) msg cu = some (usageReport prog msg cu) := by
  simp only [usageReport, PrintUsage, List.getElem?_cons_zero, Option.getD_some]

theorem copyLoop_shift (mid : List String) : ∀ (pre : List String) (x : String)
    (tail : List String),
    copyLoop (pre ++ x :: (mid ++ tail)) (pre.length + 1) pre.length mid.length
      = pre ++ (mid ++ mid.getLastD x :: tail) := by
  induction mid with
  | nil => intro pre x tail; simp [copyLoop]
  | cons m ms ih =>
    intro pre x tail
    have hget : (pre ++ x :: (m :: ms ++ tail))[pre.length + 1]? = some m := by
      rw [List.getElem?_append_right (by omega)]
      simp
    have hset : (pre ++ x :: (m :: ms ++ tail)).set pre.length m
        = (pre ++ [m]) ++ m :: (ms ++ tail) := by
      rw [List.set_append]
      simp
    simp only [copyLoop, List.length_cons, hget, hset]
    have := ih (pre ++ [m]) m tail
    simp only [List.length_append, List.length_singleton] at this
    rw [this]
    simp only [List.append_assoc, List.singleton_append, List.cons_append, List.getLastD_cons,
      List.nil_append]

/-- `ConsumeArg` on an array `x0, x1, mid..., tail...` with `argc` counting up to
the end of `mid`: `x1` is returned, `mid` moves one place left and the place it
vacates keeps its old content. -/
theorem ConsumeArg_cons (x0 x1 : String) (mid tail : List String) :
    ConsumeArg ((mid.length : Int) + 2) (x0 :: x1 :: (mid ++ tail))
      = { result := some x1, argc := (mid.length : Int) + 1,
          argv := x0 :: (mid ++ mid.getLastD x1 :: tail) } := by
  have hnot : ¬ ((mid.length : Int) + 2 < 2) := by omega
  have hn : ((mid.length : Int) + 2).toNat - 2 = mid.length := by omega
  have hc := copyLoop_shift mid [x0] x1 tail
  have ha : (mid.length : Int) + 2 - 1 = (mid.length : Int) + 1 := by omega
  simp only [List.length_singleton, List.singleton_append, Nat.reduceAdd] at hc
  simp only [ConsumeArg, if_neg hnot, stdCopy, hn, hc, ha, List.getElem?_cons_succ,
    List.getElem?_cons_zero]

/-- The three calls of `ConsumeArg` in `main` on an argument list with at least
four entries: they return the command name, the project id and the instance id. -/
theorem consume_steps (prog cmd p i : String) (rest : List String) :
    ConsumeArg ((prog :: cmd :: p :: i :: rest).length : Int) (prog :: cmd :: p :: i :: rest)
      = { result := some cmd, argc := (rest.length : Int) + 3,
          argv := prog :: p :: i :: (rest ++ [rest.getLastD i]) } ∧
    ConsumeArg ((rest.length : Int) + 3) (prog :: p :: i :: (rest ++ [rest.getLastD i]))
      = { result := some p, argc := (rest.length : Int) + 2,
          argv := prog :: i :: (rest ++ [rest.getLastD i, rest.getLastD i]) } ∧
    ConsumeArg ((rest.length : Int) + 2) (prog :: i :: (rest ++ [rest.getLastD i, rest.getLastD i]))
      = { result := some i, argc := (rest.length : Int) + 1,
          argv := prog :: (rest ++ List.replicate 3 (rest.getLastD i)) } := by
  have e1 := ConsumeArg_cons prog cmd (p :: i :: rest) []
  have e2 := ConsumeArg_cons prog p (i :: rest) [rest.getLastD i]
  have e3 := ConsumeArg_cons prog i rest [rest.getLastD i, rest.getLastD i]
  simp only [List.length_cons, List.append_nil, List.getLastD_cons, Nat.cast_add,
    Nat.cast_one, List.cons_append] at e1 e2 e3
  have l1 : ((rest.length : Int) + 1 + 1 + 1 + 1) = (rest.length : Int) + 1 + 1 + 2 := by ring
  have l2 : ((rest.length : Int) + 3) = (rest.length : Int) + 1 + 2 := by ring
  have l3 : ((rest.length : Int) + 2) = (rest.length : Int) + 1 + 1 := by ring
  refine ⟨?_, ?_, ?_⟩
  · simp only [List.length_cons, Nat.cast_add, Nat.cast_one]
    rw [l1, e1, l2]
    have : (rest.length : Int) + 1 + 1 + 1 = (rest.length : Int) + 1 + 2 := by ring
    rw [this]
  · rw [l2, e2, l3]
  · rw [e3]
    rfl

theorem dispatchArgs_eq (prog cmd p i : String) (rest : List String) :
    dispatchArgs (prog :: cmd :: p :: i :: rest)
      = { result := some i, argc := (rest.length : Int) + 1,
          argv := prog :: (rest ++ List.replicate 3 (rest.getLastD i)) } := by
  obtain ⟨s1, s2, s3⟩ := consume_steps prog cmd p i rest
  simp only [dispatchArgs, s1, s2, s3]

/-! ## Handlers called with the expected argument count -/

theorem finish_status_ne_usage (r : Except String String) (pre : String)
    (calls : List AdminCall) (argv : List String) (u : Usage) :
    (finish r pre calls argv).status ≠ .threw (.usage u) := by
  cases r <;> simp [finish]

/-- A handler called with the count it expects does not throw `Usage`. -/
theorem handler_right_count : ∀ kv ∈ commands, ∀ (b : Backend) (admin : TableAdmin)
    (argv : List String) (u : Usage),
    (kv.2 b admin (expectedArgc kv.1) argv).status ≠ .threw (.usage u) := by
  intro kv hkv
  rw [commands_eq] at hkv
  simp only [List.mem_cons, List.mem_singleton, List.not_mem_nil, or_false] at hkv
  rcases hkv with rfl | rfl | rfl | rfl | rfl | rfl | rfl | rfl | rfl | rfl | rfl | rfl <;>
    intro b admin argv u <;>
    simp only [CheckConsistency, CreateTable, DeleteSnapshot, DeleteTable, DropAllRows,
      DropRowsByPrefix, GetSnapshot, GetTable, ListSnapshots, ListTables, ModifyTable,
      WaitForConsistencyCheck] <;>
    rw [if_neg (by simp [expectedArgc])] <;>
    (repeat' split) <;>
    first
      | exact finish_status_ne_usage _ _ _ _ _
      | simp

/-- A handler of the table that throws `Usage` has done nothing else: it threw
its own usage message from the argument-count check. -/
theorem handler_usage_only (kv : String × CommandType) (hkv : kv ∈ commands) (b : Backend)
    (admin : TableAdmin) (argc : Int) (argv : List String) (u : Usage)
    (hst : (kv.2 b admin argc argv).status = .threw (.usage u)) :
    kv.2 b admin argc argv = throwUsage (usageOf kv.2) argv := by
  by_cases hc : argc = expectedArgc kv.1
  · subst hc
    exact absurd hst (handler_right_count kv hkv b admin argv u)
  · exact handler_wrong_count kv hkv b admin argc argv hc

theorem two_le_length (argv : List String) (h : (2 : Int) ≤ argv.length) :
    ∃ x0 x1 tail, argv = x0 :: x1 :: tail := by
  match argv, h with
  | x0 :: x1 :: tail, _ => exact ⟨x0, x1, tail, rfl⟩
  | [_], h => simp at h
  | [], h => simp at h

theorem three_le_length (argv : List String) (h : (3 : Int) ≤ argv.length) :
    ∃ x0 x1 x2 tail, argv = x0 :: x1 :: x2 :: tail := by
  match argv, h with
  | x0 :: x1 :: x2 :: tail, _ => exact ⟨x0, x1, x2, tail, rfl⟩
  | [_, _], h => simp at h
  | [_], h => simp at h
  | [], h => simp at h

theorem finish_cases (r : Except String String) (pre : String) (calls : List AdminCall)
    (argv : List String) :
    ((finish r pre calls argv).status = .returned ∨
      ∃ what, (finish r pre calls argv).status = .threw (.std_exception what)) ∧
    (finish r pre calls argv).calls = calls ∧ (finish r pre calls argv).argv = argv := by
  cases r <;> simp [finish]

theorem ConsumeArg_two (x0 x1 : String) (tail : List String) :
    ConsumeArg 2 (x0 :: x1 :: tail) = { result := some x1, argc := 1, argv := x0 :: x1 :: tail } := by
  simpa using ConsumeArg_cons x0 x1 [] tail

theorem ConsumeArg_three (x0 x1 x2 : String) (tail : List String) :
    ConsumeArg 3 (x0 :: x1 :: x2 :: tail)
      = { result := some x1, argc := 2, argv := x0 :: x2 :: x2 :: tail } := by
  have h := ConsumeArg_cons x0 x1 [x2] tail
  simp only [List.length_singleton, Nat.cast_one, List.singleton_append, List.getLastD_cons,
    List.getLastD_nil] at h
  have e : (1 : Int) + 2 = 3 := by norm_num
  have e2 : (1 : Int) + 1 = 2 := by norm_num
  rw [e, e2] at h
  exact h

/-- The handlers that take one argument and make one call, run on a
well-formed argument list: the single call made and the array left behind. -/
theorem one_call_handlers (b : Backend) (admin : TableAdmin) (x0 x1 : String)
    (tail : List String) :
    (∃ r, CreateTable b admin 2 (x0 :: x1 :: tail) = finish r ""
      [.CreateTable x1 [("fam", GcRule.MaxNumVersions 10), ("foo", GcRule.MaxAge 72)]]
      (x0 :: x1 :: tail)) ∧
    (∃ r, GetTable b admin 2 (x0 :: x1 :: tail) = finish r "" [.GetTable x1] (x0 :: x1 :: tail)) ∧
    (∃ r, DeleteTable b admin 2 (x0 :: x1 :: tail)
      = finish r "" [.DeleteTable x1] (x0 :: x1 :: tail)) ∧
    (∃ r mods, ModifyTable b admin 2 (x0 :: x1 :: tail)
      = finish r "" [.ModifyColumnFamilies x1 mods] (x0 :: x1 :: tail)) ∧
    (∃ r, DropAllRows b admin 2 (x0 :: x1 :: tail)
      = finish r "" [.DropAllRows x1] (x0 :: x1 :: tail)) ∧
    (∃ r, DropRowsByPrefix b admin 2 (x0 :: x1 :: tail)
      = finish r "" [.DropRowsByPrefix x1 "key-00004"] (x0 :: x1 :: tail)) ∧
    (∃ r, ListSnapshots b admin 2 (x0 :: x1 :: tail)
      = finish r "" [.ListSnapshots x1] (x0 :: x1 :: tail)) := by
  refine ⟨?_, ?_, ?_, ?_, ?_, ?_, ?_⟩
  · apply Exists.intro
    simp only [CreateTable, ConsumeArg_two, ne_eq, not_true_eq_false, if_false]
    rfl
  · apply Exists.intro
    simp only [GetTable, ConsumeArg_two, ne_eq, not_true_eq_false, if_false]
    rfl
  · apply Exists.intro
    simp only [DeleteTable, ConsumeArg_two, ne_eq, not_true_eq_false, if_false]
    rfl
  · apply Exists.intro
    apply Exists.intro
    simp only [ModifyTable, ConsumeArg_two, ne_eq, not_true_eq_false, if_false]
    rfl
  · apply Exists.intro
    simp only [DropAllRows, ConsumeArg_two, ne_eq, not_true_eq_false, if_false]
    rfl
  · apply Exists.intro
    simp only [DropRowsByPrefix, ConsumeArg_two, ne_eq, not_true_eq_false, if_false]
    rfl
  · apply Exists.intro
    simp only [ListSnapshots, ConsumeArg_two, ne_eq, not_true_eq_false, if_false]
    rfl

/-- The handlers that take two arguments, run on a well-formed argument list. -/
theorem two_arg_handlers (b : Backend) (admin : TableAdmin) (x0 x1 x2 : String)
    (tail : List String) :
    CheckConsistency b admin 3 (x0 :: x1 :: x2 :: tail)
      = finish ((b.CheckConsistency admin x1 x2).map fun result =>
            if result then "Table is consistent\n"
            else "Table is not yet consistent, Please Try again Later with the same Token!")
          "" [.CheckConsistency x1 x2] (x0 :: x2 :: x2 :: tail) ∧
    (∃ r, GetSnapshot b admin 3 (x0 :: x1 :: x2 :: tail)
      = finish r "" [.GetSnapshot x1 x2] (x0 :: x2 :: x2 :: tail)) ∧
    (∃ r, DeleteSnapshot b admin 3 (x0 :: x1 :: x2 :: tail)
      = finish r "" [.DeleteSnapshot x1 x2] (x0 :: x2 :: x2 :: tail)) := by
  refine ⟨?_, ?_, ?_⟩
  · simp only [CheckConsistency, ConsumeArg_three, ConsumeArg_two, ne_eq, not_true_eq_false,
      if_false]
  · apply Exists.intro
    simp only [GetSnapshot, ConsumeArg_three, ConsumeArg_two, ne_eq, not_true_eq_false,
      if_false]
    rfl
  · apply Exists.intro
    simp only [DeleteSnapshot, ConsumeArg_three, ConsumeArg_two, ne_eq, not_true_eq_false,
      if_false]
    rfl

/-- The handler `WaitForConsistencyCheck` run on a well-formed argument list: it asks for a
consistency token first and, if it gets one, waits on it. -/
theorem WaitForConsistencyCheck_run (b : Backend) (admin : TableAdmin) (x0 x1 : String)
    (tail : List String) :
    WaitForConsistencyCheck b admin 2 (x0 :: x1 :: tail) =
      match b.GenerateConsistencyToken admin x1 with
      | .error what =>
        { status := .threw (.std_exception what), out := "",
          calls := [.GenerateConsistencyToken x1], argv := x0 :: x1 :: tail }
      | .ok token =>
        finish ((b.WaitForConsistencyCheck admin x1 token).map fun result =>
            if result then "Table is consistent\n" else "Table is not consistent\n")
          "" [.GenerateConsistencyToken x1, .WaitForConsistencyCheck x1 token]
          (x0 :: x1 :: tail) := by
  simp only [WaitForConsistencyCheck, ConsumeArg_two, ne_eq, not_true_eq_false, if_false]

theorem ListTables_run (b : Backend) (admin : TableAdmin) (argv : List String) :
    ∃ r, ListTables b admin 1 argv = finish r "" [.ListTables] argv := by
  apply Exists.intro
  simp only [ListTables, ne_eq, not_true_eq_false, if_false]
  rfl

/-! ## Unfolding `main` -/

/-- A run with fewer than four arguments ends at the argument-count check. -/
theorem main_short (b : Backend) (prog : String) (rest : List String) (h : rest.length < 3) :
    main b (prog :: rest) =
      { exit := some 1,
        err := usageReport prog "Missing command and/or project-id/ or instance-id" aggregateUsage,
        out := "", command_usage := aggregateUsage, clients := [unused],
        invocations := probeInvocations (prog :: rest), calls := [] } := by
  have hlt : ((prog :: rest).length : Int) < 4 := by
    simp only [List.length_cons, Nat.cast_add, Nat.cast_one]
    omega
  simp only [main, probeAll_eq, if_pos hlt, PrintUsage_cons, endRun, String.append_empty,
    List.append_nil, Bool.true_eq_false, if_false]

/-- A run with at least four arguments whose command is not in the table. -/
theorem main_unknown (b : Backend) (prog cmd p i : String) (rest : List String)
    (hfind : mapFind commands cmd = none) :
    main b (prog :: cmd :: p :: i :: rest) =
      { exit := some 1,
        err := usageReport prog ("Unknown command: " ++ cmd) aggregateUsage,
        out := "", command_usage := aggregateUsage, clients := [unused],
        invocations := probeInvocations (prog :: cmd :: p :: i :: rest), calls := [] } := by
  have hlt : ¬ ((prog :: cmd :: p :: i :: rest).length : Int) < 4 := by
    simp only [List.length_cons, Nat.cast_add, Nat.cast_one]
    omega
  obtain ⟨s1, s2, s3⟩ := consume_steps prog cmd p i rest
  simp only [main, probeAll_eq, if_neg hlt, s1, s2, s3, hfind, PrintUsage_cons, endRun,
    String.append_empty, List.append_nil, Bool.true_eq_false, if_false]

/-- A run with at least four arguments whose command is in the table: the
handler is called on the real client with the shifted arguments, and how it
ends decides the exit status and what goes to `std::cerr`. -/
theorem main_found (b : Backend) (prog cmd p i : String) (rest : List String)
    (h : CommandType) (hfind : mapFind commands cmd = some h) :
    main b (prog :: cmd :: p :: i :: rest) =
      (match (h b ⟨p, i⟩ (dispatchArgs (prog :: cmd :: p :: i :: rest)).argc
          (dispatchArgs (prog :: cmd :: p :: i :: rest)).argv).status with
        | .returned =>
          endRun (probeAll b (prog :: cmd :: p :: i :: rest)) (some 0) "" [⟨p, i⟩]
            [⟨cmd, ⟨p, i⟩, (dispatchArgs (prog :: cmd :: p :: i :: rest)).argc,
              (dispatchArgs (prog :: cmd :: p :: i :: rest)).argv⟩]
            (h b ⟨p, i⟩ (dispatchArgs (prog :: cmd :: p :: i :: rest)).argc
              (dispatchArgs (prog :: cmd :: p :: i :: rest)).argv).out
            (h b ⟨p, i⟩ (dispatchArgs (prog :: cmd :: p :: i :: rest)).argc
              (dispatchArgs (prog :: cmd :: p :: i :: rest)).argv).calls
        | .threw (.usage ex) =>
          endRun (probeAll b (prog :: cmd :: p :: i :: rest))
            ((PrintUsage (h b ⟨p, i⟩ (dispatchArgs (prog :: cmd :: p :: i :: rest)).argc
              (dispatchArgs (prog :: cmd :: p :: i :: rest)).argv).argv ex.msg aggregateUsage).map
                fun _ => 1)
            ((PrintUsage (h b ⟨p, i⟩ (dispatchArgs (prog :: cmd :: p :: i :: rest)).argc
              (dispatchArgs (prog :: cmd :: p :: i :: rest)).argv).argv ex.msg aggregateUsage).getD "")
            [⟨p, i⟩]
            [⟨cmd, ⟨p, i⟩, (dispatchArgs (prog :: cmd :: p :: i :: rest)).argc,
              (dispatchArgs (prog :: cmd :: p :: i :: rest)).argv⟩]
            (h b ⟨p, i⟩ (dispatchArgs (prog :: cmd :: p :: i :: rest)).argc
              (dispatchArgs (prog :: cmd :: p :: i :: rest)).argv).out
            (h b ⟨p, i⟩ (dispatchArgs (prog :: cmd :: p :: i :: rest)).argc
              (dispatchArgs (prog :: cmd :: p :: i :: rest)).argv).calls
        | .threw (.std_exception what) =>
          endRun (probeAll b (prog :: cmd :: p :: i :: rest)) (some 1)
            ("Standard C++ exception raised: " ++ what ++ "\n") [⟨p, i⟩]
            [⟨cmd, ⟨p, i⟩, (dispatchArgs (prog :: cmd :: p :: i :: rest)).argc,
              (dispatchArgs (prog :: cmd :: p :: i :: rest)).argv⟩]
            (h b ⟨p, i⟩ (dispatchArgs (prog :: cmd :: p :: i :: rest)).argc
              (dispatchArgs (prog :: cmd :: p :: i :: rest)).argv).out
            (h b ⟨p, i⟩ (dispatchArgs (prog :: cmd :: p :: i :: rest)).argc
              (dispatchArgs (prog :: cmd :: p :: i :: rest)).argv).calls
        | .undefined =>
          endRun (probeAll b (prog :: cmd :: p :: i :: rest)) none "" [⟨p, i⟩]
            [⟨cmd, ⟨p, i⟩, (dispatchArgs (prog :: cmd :: p :: i :: rest)).argc,
              (dispatchArgs (prog :: cmd :: p :: i :: rest)).argv⟩]
            (h b ⟨p, i⟩ (dispatchArgs (prog :: cmd :: p :: i :: rest)).argc
              (dispatchArgs (prog :: cmd :: p :: i :: rest)).argv).out
            (h b ⟨p, i⟩ (dispatchArgs (prog :: cmd :: p :: i :: rest)).argc
              (dispatchArgs (prog :: cmd :: p :: i :: rest)).argv).calls) := by
  have hlt : ¬ ((prog :: cmd :: p :: i :: rest).length : Int) < 4 := by
    simp only [List.length_cons, Nat.cast_add, Nat.cast_one]
    omega
  obtain ⟨s1, s2, s3⟩ := consume_steps prog cmd p i rest
  simp only [main, dispatchArgs_eq, probeAll_eq, if_neg hlt, s1, s2, s3, hfind,
    Bool.true_eq_false, if_false]
  split
  · rfl
  · split <;> simp_all
  · rfl
  · rfl

/-! ## How a handler called with the expected count ends -/

theorem finish_outcome (r : Except String String) (pre : String) (calls : List AdminCall)
    (argv : List String) (n : Nat) (hn : calls.length = n) :
    ((finish r pre calls argv).status = .returned ∨
      ∃ what, (finish r pre calls argv).status = .threw (.std_exception what)) ∧
    ((finish r pre calls argv).status = .returned →
      (finish r pre calls argv).calls.length = n) := by
  cases r <;> simp [finish, hn]

theorem expectedArgc_values :
    expectedArgc "check-consistency" = 3 ∧ expectedArgc "create-table" = 2 ∧
    expectedArgc "delete-snapshot" = 3 ∧ expectedArgc "delete-table" = 2 ∧
    expectedArgc "drop-all-rows" = 2 ∧ expectedArgc "drop-rows-by-prefix" = 2 ∧
    expectedArgc "get-snapshot" = 3 ∧ expectedArgc "get-table" = 2 ∧
    expectedArgc "list-snapshot" = 2 ∧ expectedArgc "list-tables" = 1 ∧
    expectedArgc "modify-table" = 2 ∧ expectedArgc "wait-for-consistency-check" = 2 := by
  decide

/-- A handler of the table called with the count it expects, on an array
holding at least that many entries, either returns or lets an exception of the
client through; when it returns it has made one call on the client, except
`wait-for-consistency-check`, which has made two. -/
theorem handler_outcome : ∀ kv ∈ commands, ∀ (b : Backend) (admin : TableAdmin)
    (argv : List String), expectedArgc kv.1 ≤ (argv.length : Int) →
    ((kv.2 b admin (expectedArgc kv.1) argv).status = .returned ∨
      ∃ what, (kv.2 b admin (expectedArgc kv.1) argv).status = .threw (.std_exception what)) ∧
    ((kv.2 b admin (expectedArgc kv.1) argv).status = .returned →
      (kv.2 b admin (expectedArgc kv.1) argv).calls.length
        = if kv.1 = "wait-for-consistency-check" then 2 else 1) := by
  obtain ⟨e1, e2, e3, e4, e5, e6, e7, e8, e9, e10, e11, e12⟩ := expectedArgc_values
  intro kv hkv
  rw [commands_eq] at hkv
  simp only [List.mem_cons, List.mem_singleton, List.not_mem_nil, or_false] at hkv
  rcases hkv with rfl | rfl | rfl | rfl | rfl | rfl | rfl | rfl | rfl | rfl | rfl | rfl <;>
    intro b admin argv hlen <;> simp only [] at hlen ⊢
  · rw [e1] at hlen ⊢
    obtain ⟨x0, x1, x2, tail, rfl⟩ := three_le_length argv hlen
    rw [(two_arg_handlers b admin x0 x1 x2 tail).1]
    exact finish_outcome _ _ _ _ _ (by simp)
  · rw [e2] at hlen ⊢
    obtain ⟨x0, x1, tail, rfl⟩ := two_le_length argv hlen
    obtain ⟨r, hr⟩ := (one_call_handlers b admin x0 x1 tail).1
    rw [hr]
    exact finish_outcome _ _ _ _ _ (by simp)
  · rw [e3] at hlen ⊢
    obtain ⟨x0, x1, x2, tail, rfl⟩ := three_le_length argv hlen
    obtain ⟨r, hr⟩ := (two_arg_handlers b admin x0 x1 x2 tail).2.2
    rw [hr]
    exact finish_outcome _ _ _ _ _ (by simp)
  · rw [e4] at hlen ⊢
    obtain ⟨x0, x1, tail, rfl⟩ := two_le_length argv hlen
    obtain ⟨r, hr⟩ := (one_call_handlers b admin x0 x1 tail).2.2.1
    rw [hr]
    exact finish_outcome _ _ _ _ _ (by simp)
  · rw [e5] at hlen ⊢
    obtain ⟨x0, x1, tail, rfl⟩ := two_le_length argv hlen
    obtain ⟨r, hr⟩ := (one_call_handlers b admin x0 x1 tail).2.2.2.2.1
    rw [hr]
    exact finish_outcome _ _ _ _ _ (by simp)
  · rw [e6] at hlen ⊢
    obtain ⟨x0, x1, tail, rfl⟩ := two_le_length argv hlen
    obtain ⟨r, hr⟩ := (one_call_handlers b admin x0 x1 tail).2.2.2.2.2.1
    rw [hr]
    exact finish_outcome _ _ _ _ _ (by simp)
  · rw [e7] at hlen ⊢
    obtain ⟨x0, x1, x2, tail, rfl⟩ := three_le_length argv hlen
    obtain ⟨r, hr⟩ := (two_arg_handlers b admin x0 x1 x2 tail).2.1
    rw [hr]
    exact finish_outcome _ _ _ _ _ (by simp)
  · rw [e8] at hlen ⊢
    obtain ⟨x0, x1, tail, rfl⟩ := two_le_length argv hlen
    obtain ⟨r, hr⟩ := (one_call_handlers b admin x0 x1 tail).2.1
    rw [hr]
    exact finish_outcome _ _ _ _ _ (by simp)
  · rw [e9] at hlen ⊢
    obtain ⟨x0, x1, tail, rfl⟩ := two_le_length argv hlen
    obtain ⟨r, hr⟩ := (one_call_handlers b admin x0 x1 tail).2.2.2.2.2.2
    rw [hr]
    exact finish_outcome _ _ _ _ _ (by simp)
  · rw [e10]
    obtain ⟨r, hr⟩ := ListTables_run b admin argv
    rw [hr]
    exact finish_outcome _ _ _ _ _ (by simp)
  · rw [e11] at hlen ⊢
    obtain ⟨x0, x1, tail, rfl⟩ := two_le_length argv hlen
    obtain ⟨r, mods, hr⟩ := (one_call_handlers b admin x0 x1 tail).2.2.2.1
    rw [hr]
    exact finish_outcome _ _ _ _ _ (by simp)
  · rw [e12] at hlen ⊢
    obtain ⟨x0, x1, tail, rfl⟩ := two_le_length argv hlen
    rw [WaitForConsistencyCheck_run]
    cases b.GenerateConsistencyToken admin x1 with
    | error what => simp
    | ok token => exact finish_outcome _ _ _ _ _ (by simp)

/-- A handler of the table called on an array holding at least `argc` entries
never reads outside it. -/
theorem handler_defined (kv : String × CommandType) (hkv : kv ∈ commands) (b : Backend)
    (admin : TableAdmin) (argc : Int) (argv : List String) (hlen : argc ≤ (argv.length : Int)) :
    (kv.2 b admin argc argv).status ≠ .undefined := by
  by_cases hc : argc = expectedArgc kv.1
  · subst hc
    rcases (handler_outcome kv hkv b admin argv hlen).1 with h | ⟨what, h⟩ <;> simp [h]
  · rw [handler_wrong_count kv hkv b admin argc argv hc]
    simp [throwUsage]

/-! ## What a dispatching run leaves behind -/

/-- Whatever the handler does, a dispatching run has constructed the throwaway
client and the real one, has called the handler once after the harvesting loop,
and has made on the client the calls the handler made. -/
theorem main_dispatch_fields (b : Backend) (prog cmd p i : String) (rest : List String)
    (h : CommandType) (hfind : mapFind commands cmd = some h) :
    (main b (prog :: cmd :: p :: i :: rest)).clients = [unused, ⟨p, i⟩] ∧
    (main b (prog :: cmd :: p :: i :: rest)).invocations
      = probeInvocations (prog :: cmd :: p :: i :: rest)
        ++ [dispatchInvocation cmd p i (prog :: cmd :: p :: i :: rest)] ∧
    (main b (prog :: cmd :: p :: i :: rest)).calls
      = (dispatchRun b h p i (prog :: cmd :: p :: i :: rest)).calls ∧
    (main b (prog :: cmd :: p :: i :: rest)).out
      = (dispatchRun b h p i (prog :: cmd :: p :: i :: rest)).out ∧
    (main b (prog :: cmd :: p :: i :: rest)).command_usage = aggregateUsage := by
  rw [main_found b prog cmd p i rest h hfind]
  simp only [dispatchRun, dispatchInvocation, probeAll_eq]
  split <;> simp [endRun]

theorem main_returned (b : Backend) (prog cmd p i : String) (rest : List String)
    (h : CommandType) (hfind : mapFind commands cmd = some h)
    (hst : (dispatchRun b h p i (prog :: cmd :: p :: i :: rest)).status = .returned) :
    (main b (prog :: cmd :: p :: i :: rest)).exit = some 0 ∧
    (main b (prog :: cmd :: p :: i :: rest)).err = "" := by
  rw [main_found b prog cmd p i rest h hfind]
  simp only [dispatchRun] at hst
  rw [hst]
  simp [endRun]

theorem main_client_error (b : Backend) (prog cmd p i : String) (rest : List String)
    (h : CommandType) (hfind : mapFind commands cmd = some h) (what : String)
    (hst : (dispatchRun b h p i (prog :: cmd :: p :: i :: rest)).status
      = .threw (.std_exception what)) :
    (main b (prog :: cmd :: p :: i :: rest)).exit = some 1 ∧
    (main b (prog :: cmd :: p :: i :: rest)).err
      = "Standard C++ exception raised: " ++ what ++ "\n" := by
  rw [main_found b prog cmd p i rest h hfind]
  simp only [dispatchRun] at hst
  rw [hst]
  simp [endRun]

theorem main_usage_error (b : Backend) (prog cmd p i : String) (rest : List String)
    (h : CommandType) (hfind : mapFind commands cmd = some h) (u : Usage)
    (hst : (dispatchRun b h p i (prog :: cmd :: p :: i :: rest)).status = .threw (.usage u)) :
    (main b (prog :: cmd :: p :: i :: rest)).exit = some 1 ∧
    (main b (prog :: cmd :: p :: i :: rest)).err = usageReport prog u.msg aggregateUsage ∧
    u.msg = usageOf h := by
  have hmem := mapFind_mem commands cmd h hfind
  simp only [dispatchRun] at hst
  have hrun := handler_usage_only (cmd, h) hmem b ⟨p, i⟩ _ _ u hst
  simp only [] at hrun
  have hmsg : u.msg = usageOf h := by
    rw [hrun] at hst
    simp only [throwUsage, Completion.threw.injEq, Thrown.usage.injEq] at hst
    rw [← hst]
  have hargv : (h b ⟨p, i⟩ (dispatchArgs (prog :: cmd :: p :: i :: rest)).argc
      (dispatchArgs (prog :: cmd :: p :: i :: rest)).argv).argv
        = prog :: (rest ++ List.replicate 3 (rest.getLastD i)) := by
    rw [hrun, dispatchArgs_eq]
    rfl
  rw [main_found b prog cmd p i rest h hfind, hst]
  simp only [hargv, PrintUsage_cons]
  simp [endRun, hmsg]

/-- A dispatching run always ends with an exit status. -/
theorem main_dispatch_defined (b : Backend) (prog cmd p i : String) (rest : List String)
    (h : CommandType) (hfind : mapFind commands cmd = some h) :
    (dispatchRun b h p i (prog :: cmd :: p :: i :: rest)).status ≠ .undefined := by
  have hmem := mapFind_mem commands cmd h hfind
  have := handler_defined (cmd, h) hmem b ⟨p, i⟩
    (dispatchArgs (prog :: cmd :: p :: i :: rest)).argc
    (dispatchArgs (prog :: cmd :: p :: i :: rest)).argv
    (by rw [dispatchArgs_eq]; simp)
  exact this

/-! ## Texts -/

theorem startsWith_append (a b part : String) (h : StartsWith a part) :
    StartsWith (a ++ b) part := by
  obtain ⟨t, ht⟩ := h
  exact ⟨t ++ b.data, by rw [String.data_append, ← ht, List.append_assoc]⟩

theorem StartsWith.contains {text part : String} (h : StartsWith text part) :
    Contains text part :=
  List.IsPrefix.isInfix h

theorem usageReport_startsWith (prog msg cu : String) :
    StartsWith (usageReport prog msg cu) msg := by
  rw [usageReport_eq]
  simp only [String.append_assoc]
  exact ⟨_, (String.data_append _ _).symm⟩

theorem usageReport_prints_usage (prog msg cu : String) :
    Contains (usageReport prog msg cu) ("Commands:\n" ++ cu ++ "\n") := by
  rw [usageReport_eq]
  refine ⟨(msg ++ "\nUsage: " ++ substr prog ((find_last_of prog '/' + 1) % 2 ^ 64)
    ++ " <command> [arguments]\n\n").data, [], ?_⟩
  simp only [String.data_append, List.append_nil, List.append_assoc]

theorem not_startsWith_of_head (text part : String) (c : Char) (cs : List Char)
    (hp : part.data = c :: cs) (ht : text.data.head? ≠ some c) : ¬ StartsWith text part := by
  rintro ⟨t, h⟩
  apply ht
  rw [← h, hp]
  rfl

theorem not_infix_of_scan (part : List Char) : ∀ text : List Char,
    occursIn part text = false → ¬ part <:+: text := by
  intro text
  induction text with
  | nil =>
    intro hs hc
    have hnil : part = [] := List.eq_nil_of_infix_nil hc
    subst hnil
    simp [occursIn] at hs
  | cons c cs ih =>
    intro hs hc
    simp only [occursIn, Bool.or_eq_false_iff] at hs
    rcases List.infix_cons_iff.mp hc with hp | hi
    · have := List.isPrefixOf_iff_prefix.mpr hp
      rw [hs.1] at this
      exact Bool.false_ne_true this
    · exact ih hs.2 hi

/-! ## The claims about `main` -/

/-- C1, as the code has it. Exit status of `main`.  When the command name is not
in the command table the status is 1; the message printed contains "Unknown
command" when at least 4 arguments were given, and with fewer arguments the run
ends at the argument-count check, whose message is "Missing command and/or
project-id/ or instance-id".  When the command is in the table and at least 4
arguments were given, the status is 0 if the dispatched handler returns, 1 if
it throws a `Usage`, 1 if an exception of the admin client propagates, and it
is never anything but 0 or 1. -/
theorem main_exit_status (b : Backend) (prog cmd : String) :
    (∀ more, mapFind commands cmd = none → (main b (prog :: cmd :: more)).exit = some 1) ∧
    (∀ p i rest, mapFind commands cmd = none →
      Contains (main b (prog :: cmd :: p :: i :: rest)).err "Unknown command") ∧
    (∀ more, more.length < 2 →
      (main b (prog :: cmd :: more)).exit = some 1 ∧
      StartsWith (main b (prog :: cmd :: more)).err
        "Missing command and/or project-id/ or instance-id") ∧
    (∀ p i rest h, mapFind commands cmd = some h →
      ((dispatchRun b h p i (prog :: cmd :: p :: i :: rest)).status = .returned →
        (main b (prog :: cmd :: p :: i :: rest)).exit = some 0) ∧
      (∀ u, (dispatchRun b h p i (prog :: cmd :: p :: i :: rest)).status = .threw (.usage u) →
        (main b (prog :: cmd :: p :: i :: rest)).exit = some 1) ∧
      (∀ what, (dispatchRun b h p i (prog :: cmd :: p :: i :: rest)).status
          = .threw (.std_exception what) →
        (main b (prog :: cmd :: p :: i :: rest)).exit = some 1) ∧
      ((main b (prog :: cmd :: p :: i :: rest)).exit = some 0 ∨
        (main b (prog :: cmd :: p :: i :: rest)).exit = some 1)) := by
  refine ⟨?_, ?_, ?_, ?_⟩
  · intro more hfind
    by_cases hlen : (cmd :: more).length < 3
    · rw [main_short b prog (cmd :: more) hlen]
    · match more, hlen with
      | p :: i :: rest, _ => rw [main_unknown b prog cmd p i rest hfind]
      | [_], hlen => simp at hlen
      | [], hlen => simp at hlen
  · intro p i rest hfind
    rw [main_unknown b prog cmd p i rest hfind]
    have h1 : StartsWith ("Unknown command: " ++ cmd) "Unknown command" :=
      ⟨": ".data ++ cmd.data, by rw [String.data_append]; rfl⟩
    exact (List.IsPrefix.trans h1 (usageReport_startsWith _ _ _)).isInfix
  · intro more hlen
    have hlen3 : (cmd :: more).length < 3 := by
      simp only [List.length_cons]
      omega
    rw [main_short b prog (cmd :: more) hlen3]
    exact ⟨rfl, usageReport_startsWith _ _ _⟩
  · intro p i rest h hfind
    refine ⟨fun hst => (main_returned b prog cmd p i rest h hfind hst).1,
      fun u hst => (main_usage_error b prog cmd p i rest h hfind u hst).1,
      fun what hst => (main_client_error b prog cmd p i rest h hfind what hst).1, ?_⟩
    have hdef := main_dispatch_defined b prog cmd p i rest h hfind
    cases hst : (dispatchRun b h p i (prog :: cmd :: p :: i :: rest)).status with
    | returned => exact Or.inl (main_returned b prog cmd p i rest h hfind hst).1
    | undefined => exact absurd hst hdef
    | threw e =>
      cases e with
      | usage u => exact Or.inr (main_usage_error b prog cmd p i rest h hfind u hst).1
      | std_exception what =>
        exact Or.inr (main_client_error b prog cmd p i rest h hfind what hst).1

/-- Witness of C1 as amended: a successful run, a run whose handler throws
`Usage`, runs with an unknown command with two and with four arguments, and a
run in which the client refuses the call. -/
theorem main_exit_status_witness :
    (main sampleBackend ["prog", "list-tables", "p", "i"]).exit = some 0 ∧
    (main sampleBackend ["prog", "get-table", "p", "i"]).exit = some 1 ∧
    (main sampleBackend ["prog", "bogus", "p"]).exit = some 1 ∧
    Contains (main sampleBackend ["prog", "bogus", "p", "i"]).err "Unknown command" ∧
    StartsWith (main sampleBackend ["prog", "bogus", "p"]).err
      "Missing command and/or project-id/ or instance-id" ∧
    (main refusingBackend ["prog", "delete-table", "p", "i", "t"]).exit = some 1 :=
  ⟨((main_exit_status sampleBackend "prog" "list-tables").2.2.2 "p" "i" [] ListTables rfl).1
      (by decide),
   ((main_exit_status sampleBackend "prog" "get-table").2.2.2 "p" "i" [] GetTable rfl).2.1
      ⟨"get-table: <project-id> <instanse-id> <table-id>"⟩ (by decide),
   (main_exit_status sampleBackend "prog" "bogus").1 ["p"] rfl,
   (main_exit_status sampleBackend "prog" "bogus").2.1 "p" "i" [] rfl,
   ((main_exit_status sampleBackend "prog" "bogus").2.2.1 ["p"] (by decide)).2,
   ((main_exit_status refusingBackend "prog" "delete-table").2.2.2 "p" "i" ["t"] DeleteTable
      rfl).2.2.1 "permission denied" (by decide)⟩

/-- C1 as stated fails: in the run `prog bogus` the command name `bogus` is not
in the command table and the exit status is 1, but the message printed is the
one of the argument-count check and does not contain "Unknown command". -/
theorem unknown_command_with_few_arguments :
    mapFind commands "bogus" = none ∧
    (main sampleBackend ["prog", "bogus"]).exit = some 1 ∧
    StartsWith (main sampleBackend ["prog", "bogus"]).err
      "Missing command and/or project-id/ or instance-id" ∧
    ¬ Contains (main sampleBackend ["prog", "bogus"]).err "Unknown command" := by
  refine ⟨rfl, by decide, by decide, ?_⟩
  rw [main_short sampleBackend "prog" ["bogus"] (by decide)]
  have hscan : occursIn "Unknown command".data
      (usageReport "prog" "Missing command and/or project-id/ or instance-id"
        aggregateUsage).data = false := by
    decide
  exact not_infix_of_scan _ _ hscan

theorem probe_argc (argv : List String) : ∀ v ∈ probeInvocations argv, v.argc = 0 := by
  intro v hv
  simp only [probeInvocations, List.mem_map] at hv
  obtain ⟨kv, _, rfl⟩ := hv
  rfl

/-- C2. For every argument vector `[prog, cmd, p, i, a1, ..., an]` whose `cmd`
is in the command table, `main` constructs the real client from `p` and `i` and
calls the handler stored under `cmd` exactly once after the harvesting loop,
on that client, with argument count `n + 1` and an argument array that begins
`[prog, a1, ..., an]`; the calls made on the client and the text on `std::cout`
are those of that handler. -/
theorem main_dispatches_once (b : Backend) (prog cmd p i : String) (rest : List String)
    (h : CommandType) (hfind : mapFind commands cmd = some h) :
    (dispatchArgs (prog :: cmd :: p :: i :: rest)).argc = (rest.length : Int) + 1 ∧
    (dispatchArgs (prog :: cmd :: p :: i :: rest)).argv.take (rest.length + 1) = prog :: rest ∧
    (main b (prog :: cmd :: p :: i :: rest)).clients = [unused, ⟨p, i⟩] ∧
    (main b (prog :: cmd :: p :: i :: rest)).invocations
      = probeInvocations (prog :: cmd :: p :: i :: rest)
        ++ [dispatchInvocation cmd p i (prog :: cmd :: p :: i :: rest)] ∧
    dispatchInvocation cmd p i (prog :: cmd :: p :: i :: rest)
      = ⟨cmd, ⟨p, i⟩, (dispatchArgs (prog :: cmd :: p :: i :: rest)).argc,
          (dispatchArgs (prog :: cmd :: p :: i :: rest)).argv⟩ ∧
    (main b (prog :: cmd :: p :: i :: rest)).invocations.count
      (dispatchInvocation cmd p i (prog :: cmd :: p :: i :: rest)) = 1 ∧
    (main b (prog :: cmd :: p :: i :: rest)).calls
      = (h b ⟨p, i⟩ (dispatchArgs (prog :: cmd :: p :: i :: rest)).argc
          (dispatchArgs (prog :: cmd :: p :: i :: rest)).argv).calls ∧
    (main b (prog :: cmd :: p :: i :: rest)).out
      = (h b ⟨p, i⟩ (dispatchArgs (prog :: cmd :: p :: i :: rest)).argc
          (dispatchArgs (prog :: cmd :: p :: i :: rest)).argv).out := by
  obtain ⟨hc, hi, hcalls, hout, _⟩ := main_dispatch_fields b prog cmd p i rest h hfind
  refine ⟨?_, ?_, hc, hi, rfl, ?_, hcalls, hout⟩
  · rw [dispatchArgs_eq]
  · rw [dispatchArgs_eq]
    simp
  · rw [hi, List.count_append]
    have hnot : dispatchInvocation cmd p i (prog :: cmd :: p :: i :: rest)
        ∉ probeInvocations (prog :: cmd :: p :: i :: rest) := by
      intro hmem
      have h0 := probe_argc _ _ hmem
      simp only [dispatchInvocation, dispatchArgs_eq] at h0
      omega
    rw [List.count_eq_zero.mpr hnot]
    simp

/-- Witness of C2 on `prog get-table p i t`. -/
theorem main_dispatches_once_witness :
    (main sampleBackend ["prog", "get-table", "p", "i", "t"]).clients = [unused, ⟨"p", "i"⟩] ∧
    (main sampleBackend ["prog", "get-table", "p", "i", "t"]).invocations.count
      (dispatchInvocation "get-table" "p" "i" ["prog", "get-table", "p", "i", "t"]) = 1 ∧
    dispatchInvocation "get-table" "p" "i" ["prog", "get-table", "p", "i", "t"]
      = ⟨"get-table", ⟨"p", "i"⟩, 2, ["prog", "t", "t", "t", "t"]⟩ ∧
    (main sampleBackend ["prog", "get-table", "p", "i", "t"]).calls = [.GetTable "t"] :=
  ⟨(main_dispatches_once sampleBackend "prog" "get-table" "p" "i" ["t"] GetTable rfl).2.2.1,
   (main_dispatches_once sampleBackend "prog" "get-table" "p" "i" ["t"] GetTable
      rfl).2.2.2.2.2.1,
   by decide, by decide⟩

/-- C8. For every argument vector with fewer than 4 entries (program name
included), `main` exits with status 1 after printing the message "Missing
command and/or project-id/ or instance-id"; the only client constructed is the
throwaway one, the only handler calls are those of the harvesting loop on that
client, and no call is made on any client. -/
theorem main_too_few_arguments (b : Backend) (prog : String) (rest : List String)
    (h : (prog :: rest).length < 4) :
    (main b (prog :: rest)).exit = some 1 ∧
    StartsWith (main b (prog :: rest)).err
      "Missing command and/or project-id/ or instance-id" ∧
    (main b (prog :: rest)).clients = [unused] ∧
    (main b (prog :: rest)).invocations = probeInvocations (prog :: rest) ∧
    (∀ v ∈ (main b (prog :: rest)).invocations, v.admin = unused ∧ v.argc = 0) ∧
    (main b (prog :: rest)).calls = [] ∧
    (main b (prog :: rest)).out = "" := by
  have hlen : rest.length < 3 := by
    simp only [List.length_cons] at h
    omega
  rw [main_short b prog rest hlen]
  refine ⟨rfl, usageReport_startsWith _ _ _, rfl, rfl, ?_, rfl, rfl⟩
  intro v hv
  simp only [probeInvocations, List.mem_map] at hv
  obtain ⟨kv, _, rfl⟩ := hv
  exact ⟨rfl, rfl⟩

/-- Witness of C8 on `prog get-table p`. -/
theorem main_too_few_arguments_witness :
    (main sampleBackend ["prog", "get-table", "p"]).exit = some 1 ∧
    StartsWith (main sampleBackend ["prog", "get-table", "p"]).err
      "Missing command and/or project-id/ or instance-id" ∧
    (main sampleBackend ["prog", "get-table", "p"]).clients = [unused] ∧
    (main sampleBackend ["prog", "get-table", "p"]).calls = [] :=
  have w := main_too_few_arguments sampleBackend "prog" ["get-table", "p"] (by decide)
  ⟨w.1, w.2.1, w.2.2.1, w.2.2.2.2.2.1⟩

/-! ## The claims about the handlers -/

/-- C3. For every command in the command table and every argument count
different from the one its handler expects (1 for list-tables; 3 for
check-consistency, get-snapshot and delete-snapshot; 2 for the other eight), the
handler throws a `Usage` whose message contains the name under which the
command is registered, before writing anything or calling the client.  At the
expected count it throws no `Usage`. -/
theorem handler_wrong_count_usage (name : String) (h : CommandType)
    (hmem : (name, h) ∈ commands) (b : Backend) (admin : TableAdmin) (argv : List String) :
    (∀ argc : Int, argc ≠ expectedArgc name →
      ∃ msg, (h b admin argc argv).status = .threw (.usage ⟨msg⟩) ∧ Contains msg name ∧
        (h b admin argc argv).out = "" ∧ (h b admin argc argv).calls = []) ∧
    (∀ u, (h b admin (expectedArgc name) argv).status ≠ .threw (.usage u)) := by
  refine ⟨?_, fun u => handler_right_count (name, h) hmem b admin argv u⟩
  intro argc hne
  have hrun : h b admin argc argv = throwUsage (usageOf h) argv :=
    handler_wrong_count (name, h) hmem b admin argc argv hne
  rw [hrun]
  exact ⟨usageOf h, rfl, (usage_starts_with_name (name, h) hmem).isInfix, rfl, rfl⟩

/-- Witness of C3: `get-table` called with five arguments. -/
theorem handler_wrong_count_usage_witness :
    ∃ msg, (GetTable sampleBackend unused 5 ["prog", "a", "b", "c", "d"]).status
        = .threw (.usage ⟨msg⟩) ∧ Contains msg "get-table" ∧
      (GetTable sampleBackend unused 5 ["prog", "a", "b", "c", "d"]).out = "" ∧
      (GetTable sampleBackend unused 5 ["prog", "a", "b", "c", "d"]).calls = [] :=
  (handler_wrong_count_usage "get-table" GetTable (by rw [commands_eq]; simp) sampleBackend
    unused ["prog", "a", "b", "c", "d"]).1 5 (by decide)

/-- C9. For every table id and consistency token, `check-consistency` called
with its expected argument count makes the single call `CheckConsistency` and
prints exactly one of two fixed phrases, chosen by the boolean that call
returns: "Table is consistent" when it is true, "Table is not yet consistent,
Please Try again Later with the same Token!" when it is false. -/
theorem CheckConsistency_prints_one_phrase (b : Backend) (admin : TableAdmin)
    (prog table_id token : String) (tail : List String) (result : Bool)
    (hres : b.CheckConsistency admin table_id token = .ok result) :
    (CheckConsistency b admin 3 (prog :: table_id :: token :: tail)).status = .returned ∧
    (CheckConsistency b admin 3 (prog :: table_id :: token :: tail)).calls
      = [.CheckConsistency table_id token] ∧
    (CheckConsistency b admin 3 (prog :: table_id :: token :: tail)).out
      = (if result then "Table is consistent\n"
         else "Table is not yet consistent, Please Try again Later with the same Token!") ∧
    (Contains (CheckConsistency b admin 3 (prog :: table_id :: token :: tail)).out
        "Table is consistent" ↔ result = true) ∧
    (Contains (CheckConsistency b admin 3 (prog :: table_id :: token :: tail)).out
        "Table is not yet consistent, Please Try again Later with the same Token!"
      ↔ result = false) := by
  rw [(two_arg_handlers b admin prog table_id token tail).1, hres]
  cases result
  · refine ⟨rfl, rfl, rfl, ?_, ?_⟩
    · simp only [finish, Except.map, Bool.false_eq_true, if_false, String.empty_append,
        iff_false]
      decide
    · simp only [finish, Except.map, Bool.false_eq_true, if_false, String.empty_append,
        iff_true]
      decide
  · refine ⟨rfl, rfl, rfl, ?_, ?_⟩
    · simp only [finish, Except.map, if_true, String.empty_append, iff_true]
      decide
    · simp only [finish, Except.map, if_true, String.empty_append, Bool.true_eq_false,
        iff_false]
      decide

/-- Witness of C9: the service answers `false`. -/
theorem CheckConsistency_prints_one_phrase_witness :
    (CheckConsistency sampleBackend unused 3 ["prog", "t", "tok"]).out
      = "Table is not yet consistent, Please Try again Later with the same Token!" ∧
    (Contains (CheckConsistency sampleBackend unused 3 ["prog", "t", "tok"]).out
        "Table is consistent" ↔ false = true) :=
  have w := CheckConsistency_prints_one_phrase sampleBackend unused "prog" "t" "tok" [] false rfl
  ⟨w.2.2.1, w.2.2.2.1⟩

/-- C6, as the code has it. A handler of the table called with its expected
argument count, on an array holding the arguments, with no exception coming out
of the admin client, returns after exactly one call on the client, except
`wait-for-consistency-check`, which makes exactly two: `GenerateConsistencyToken`
on the table id `argv[1]` and then `WaitForConsistencyCheck` on that table id
and on the token the first call answered. -/
theorem handler_call_count (name : String) (h : CommandType) (hmem : (name, h) ∈ commands)
    (b : Backend) (admin : TableAdmin) (argv : List String)
    (hlen : expectedArgc name ≤ (argv.length : Int))
    (hok : ∀ what, (h b admin (expectedArgc name) argv).status ≠ .threw (.std_exception what)) :
    (h b admin (expectedArgc name) argv).status = .returned ∧
    (h b admin (expectedArgc name) argv).calls.length
      = (if name = "wait-for-consistency-check" then 2 else 1) ∧
    (name = "wait-for-consistency-check" →
      ∃ table_id token, argv[1]? = some table_id ∧
        b.GenerateConsistencyToken admin table_id = .ok token ∧
        (∃ result, b.WaitForConsistencyCheck admin table_id token = .ok result) ∧
        (h b admin (expectedArgc name) argv).calls
          = [.GenerateConsistencyToken table_id, .WaitForConsistencyCheck table_id token]) := by
  obtain ⟨h1, h2⟩ := handler_outcome (name, h) hmem b admin argv hlen
  have hret : (h b admin (expectedArgc name) argv).status = .returned := by
    rcases h1 with h1 | ⟨what, h1⟩
    · exact h1
    · exact absurd h1 (hok what)
  refine ⟨hret, h2 hret, ?_⟩
  intro hname
  subst hname
  rw [commands_eq] at hmem
  have hh : h = WaitForConsistencyCheck := by
    simp only [List.mem_cons, Prod.mk.injEq, List.mem_singleton, List.not_mem_nil,
      or_false] at hmem
    rcases hmem with ⟨hn, _⟩ | ⟨hn, _⟩ | ⟨hn, _⟩ | ⟨hn, _⟩ | ⟨hn, _⟩ | ⟨hn, _⟩ | ⟨hn, _⟩ |
      ⟨hn, _⟩ | ⟨hn, _⟩ | ⟨hn, _⟩ | ⟨hn, _⟩ | ⟨_, hh⟩
    all_goals first | exact hh | exact absurd hn (by decide)
  subst hh
  have e12 := expectedArgc_values.2.2.2.2.2.2.2.2.2.2.2
  rw [e12] at hlen hret ⊢
  obtain ⟨x0, x1, tail, rfl⟩ := two_le_length argv hlen
  rw [WaitForConsistencyCheck_run] at hret ⊢
  cases hg : b.GenerateConsistencyToken admin x1 with
  | error what => rw [hg] at hret; simp at hret
  | ok token =>
    rw [hg] at hret
    simp only [] at hret ⊢
    cases hw : b.WaitForConsistencyCheck admin x1 token with
    | error what => rw [hw] at hret; simp [finish, Except.map] at hret
    | ok result =>
      exact ⟨x1, token, List.getElem?_cons_succ.trans List.getElem?_cons_zero, hg,
        ⟨result, hw⟩, (finish_cases _ _ _ _).2.1⟩

/-- Witness of C6 as amended: `get-table` makes one call,
`wait-for-consistency-check` two, the second on the token the first answered. -/
theorem handler_call_count_witness :
    (GetTable sampleBackend unused 2 ["prog", "t"]).calls.length = 1 ∧
    (WaitForConsistencyCheck sampleBackend unused 2 ["prog", "t"]).calls.length = 2 ∧
    (∃ table_id token, ["prog", "t"][1]? = some table_id ∧
      sampleBackend.GenerateConsistencyToken unused table_id = .ok token ∧
      (∃ result, sampleBackend.WaitForConsistencyCheck unused table_id token = .ok result) ∧
      (WaitForConsistencyCheck sampleBackend unused
          (expectedArgc "wait-for-consistency-check") ["prog", "t"]).calls
        = [.GenerateConsistencyToken table_id, .WaitForConsistencyCheck table_id token]) :=
  ⟨(handler_call_count "get-table" GetTable (by rw [commands_eq]; simp) sampleBackend unused
      ["prog", "t"] (by decide)
      (fun what hw => Completion.noConfusion
        ((show (GetTable sampleBackend unused 2 ["prog", "t"]).status = .returned by
          decide).symm.trans hw))).2.1,
   (handler_call_count "wait-for-consistency-check" WaitForConsistencyCheck
      (by rw [commands_eq]; simp) sampleBackend unused ["prog", "t"] (by decide)
      (fun what hw => Completion.noConfusion
        ((show (WaitForConsistencyCheck sampleBackend unused 2 ["prog", "t"]).status
          = .returned by decide).symm.trans hw))).2.1,
   (handler_call_count "wait-for-consistency-check" WaitForConsistencyCheck
      (by rw [commands_eq]; simp) sampleBackend unused ["prog", "t"] (by decide)
      (fun what hw => Completion.noConfusion
        ((show (WaitForConsistencyCheck sampleBackend unused 2 ["prog", "t"]).status
          = .returned by decide).symm.trans hw))).2.2 rfl⟩

/-- C6 as stated fails: `wait-for-consistency-check`, called with its expected
argument count on a client that raises no error, returns after two calls on
the client. -/
theorem wait_for_consistency_check_makes_two_calls :
    ("wait-for-consistency-check", WaitForConsistencyCheck) ∈ commands ∧
    expectedArgc "wait-for-consistency-check" = 2 ∧
    (WaitForConsistencyCheck sampleBackend ⟨"p", "i"⟩ 2 ["prog", "t"]).status = .returned ∧
    (WaitForConsistencyCheck sampleBackend ⟨"p", "i"⟩ 2 ["prog", "t"]).calls
      = [.GenerateConsistencyToken "t", .WaitForConsistencyCheck "t" "token"] ∧
    (WaitForConsistencyCheck sampleBackend ⟨"p", "i"⟩ 2 ["prog", "t"]).calls.length ≠ 1 :=
  ⟨by rw [commands_eq]; simp, by decide, by decide, by decide, by decide⟩

/-! ## Failure reports -/

/-- C7, as the code has it. A run that fails for too few arguments, for a
command name the table lookup does not find, or for a `Usage` thrown by the
handler exits with status 1 after printing the aggregate usage text (the
`Commands:` list).  A run that fails on an exception of the admin client exits
with status 1 after printing only the line `Standard C++ exception raised: `
followed by the text of the exception. -/
theorem failing_run_report (b : Backend) (prog : String) :
    (∀ rest, rest.length < 3 →
      (main b (prog :: rest)).exit = some 1 ∧ PrintsAggregateUsage (main b (prog :: rest))) ∧
    (∀ cmd p i rest, mapFind commands cmd = none →
      (main b (prog :: cmd :: p :: i :: rest)).exit = some 1 ∧
      PrintsAggregateUsage (main b (prog :: cmd :: p :: i :: rest))) ∧
    (∀ cmd p i rest h u, mapFind commands cmd = some h →
      (dispatchRun b h p i (prog :: cmd :: p :: i :: rest)).status = .threw (.usage u) →
      (main b (prog :: cmd :: p :: i :: rest)).exit = some 1 ∧
      PrintsAggregateUsage (main b (prog :: cmd :: p :: i :: rest))) ∧
    (∀ cmd p i rest h what, mapFind commands cmd = some h →
      (dispatchRun b h p i (prog :: cmd :: p :: i :: rest)).status
        = .threw (.std_exception what) →
      (main b (prog :: cmd :: p :: i :: rest)).exit = some 1 ∧
      (main b (prog :: cmd :: p :: i :: rest)).err
        = "Standard C++ exception raised: " ++ what ++ "\n") := by
  refine ⟨?_, ?_, ?_, ?_⟩
  · intro rest hlen
    rw [main_short b prog rest hlen]
    exact ⟨rfl, usageReport_prints_usage _ _ _⟩
  · intro cmd p i rest hfind
    rw [main_unknown b prog cmd p i rest hfind]
    exact ⟨rfl, usageReport_prints_usage _ _ _⟩
  · intro cmd p i rest h u hfind hst
    obtain ⟨hexit, herr, _⟩ := main_usage_error b prog cmd p i rest h hfind u hst
    obtain ⟨_, _, _, _, hcu⟩ := main_dispatch_fields b prog cmd p i rest h hfind
    refine ⟨hexit, ?_⟩
    simp only [PrintsAggregateUsage, herr, hcu]
    exact usageReport_prints_usage _ _ _
  · intro cmd p i rest h what hfind hst
    exact main_client_error b prog cmd p i rest h hfind what hst

/-- Witness of C7 as amended: one run of each failure kind. -/
theorem failing_run_report_witness :
    PrintsAggregateUsage (main sampleBackend ["prog", "get-table"]) ∧
    PrintsAggregateUsage (main sampleBackend ["prog", "bogus", "p", "i"]) ∧
    PrintsAggregateUsage (main sampleBackend ["prog", "get-table", "p", "i"]) ∧
    (main refusingBackend ["prog", "delete-table", "p", "i", "t"]).err
      = "Standard C++ exception raised: permission denied\n" :=
  ⟨((failing_run_report sampleBackend "prog").1 ["get-table"] (by decide)).2,
   ((failing_run_report sampleBackend "prog").2.1 "bogus" "p" "i" [] rfl).2,
   ((failing_run_report sampleBackend "prog").2.2.1 "get-table" "p" "i" [] GetTable
      ⟨"get-table: <project-id> <instanse-id> <table-id>"⟩ rfl (by decide)).2,
   ((failing_run_report refusingBackend "prog").2.2.2 "delete-table" "p" "i" ["t"] DeleteTable
      "permission denied" rfl (by decide)).2⟩

/-- C7 as stated fails: when the admin client refuses the call the run exits
with status 1 and `std::cerr` holds one line, without the aggregate usage text. -/
theorem client_error_prints_no_usage :
    (main refusingBackend ["prog", "delete-table", "p", "i", "t"]).exit = some 1 ∧
    (main refusingBackend ["prog", "delete-table", "p", "i", "t"]).err
      = "Standard C++ exception raised: permission denied\n" ∧
    ¬ PrintsAggregateUsage (main refusingBackend ["prog", "delete-table", "p", "i", "t"]) ∧
    ¬ Contains (main refusingBackend ["prog", "delete-table", "p", "i", "t"]).err "Commands:" := by
  refine ⟨by decide, by decide, ?_, ?_⟩
  · have herr : (main refusingBackend ["prog", "delete-table", "p", "i", "t"]).err
        = "Standard C++ exception raised: permission denied\n" := by decide
    have hcu : (main refusingBackend ["prog", "delete-table", "p", "i", "t"]).command_usage
        = aggregateUsage :=
      (main_dispatch_fields refusingBackend "prog" "delete-table" "p" "i" ["t"] DeleteTable
        rfl).2.2.2.2
    simp only [PrintsAggregateUsage, herr, hcu]
    intro hc
    have hlen := List.IsInfix.length_le hc
    revert hlen
    decide
  · have herr : (main refusingBackend ["prog", "delete-table", "p", "i", "t"]).err
        = "Standard C++ exception raised: permission denied\n" := by decide
    rw [herr]
    decide

/-! ## The keys of the command table -/

theorem usage_head : ∀ kv ∈ commands,
    (usageOf kv.2).data.head? ≠ some 'U' ∧ (usageOf kv.2).data ≠ [] := by
  intro kv hkv
  rw [commands_eq] at hkv
  simp only [List.mem_cons, List.mem_singleton, List.not_mem_nil, or_false] at hkv
  rcases hkv with rfl | rfl | rfl | rfl | rfl | rfl | rfl | rfl | rfl | rfl | rfl | rfl <;>
    decide

/-- A run that dispatches a handler does not report an unknown command. -/
theorem dispatch_not_unknown (b : Backend) (prog cmd p i : String) (rest : List String)
    (h : CommandType) (hfind : mapFind commands cmd = some h) :
    ¬ StartsWith (main b (prog :: cmd :: p :: i :: rest)).err "Unknown command" := by
  apply not_startsWith_of_head _ "Unknown command" 'U' "nknown command".data rfl
  cases hst : (dispatchRun b h p i (prog :: cmd :: p :: i :: rest)).status with
  | returned =>
    rw [(main_returned b prog cmd p i rest h hfind hst).2]
    decide
  | undefined => exact absurd hst (main_dispatch_defined b prog cmd p i rest h hfind)
  | threw e =>
    cases e with
    | usage u =>
      obtain ⟨_, herr, hmsg⟩ := main_usage_error b prog cmd p i rest h hfind u hst
      obtain ⟨hhead, hne⟩ := usage_head (cmd, h) (mapFind_mem commands cmd h hfind)
      rw [herr, usageReport_eq, hmsg]
      simp only [String.data_append, List.append_assoc]
      simp only [] at hhead hne
      cases hd : (usageOf h).data with
      | nil => exact absurd hd hne
      | cons c cs =>
        rw [hd] at hhead
        simpa using hhead
    | std_exception what =>
      rw [(main_client_error b prog cmd p i rest h hfind what hst).2]
      simp only [String.data_append, List.append_assoc]
      simp

/-- C4, as the code has it. The keys of the command table are create-table,
list-tables, get-table, delete-table, modify-table, drop-all-rows,
drop-rows-by-prefix, wait-for-consistency-check, check-consistency,
get-snapshot, list-snapshot (in the singular) and delete-snapshot; running
`main` with one of them as the command and at least 4 arguments constructs the
real client, calls the handler stored under that name, and does not report an
unknown command. -/
theorem registered_names_reach_handler (name : String) :
    ((∃ h, mapFind commands name = some h) ↔
      name ∈ ["create-table", "list-tables", "get-table", "delete-table", "modify-table",
        "drop-all-rows", "drop-rows-by-prefix", "wait-for-consistency-check",
        "check-consistency", "get-snapshot", "list-snapshot", "delete-snapshot"]) ∧
    (name ∈ ["create-table", "list-tables", "get-table", "delete-table", "modify-table",
        "drop-all-rows", "drop-rows-by-prefix", "wait-for-consistency-check",
        "check-consistency", "get-snapshot", "list-snapshot", "delete-snapshot"] →
      ∀ (b : Backend) (prog p i : String) (rest : List String),
        ∃ h, mapFind commands name = some h ∧ (name, h) ∈ registrations ∧
          (main b (prog :: name :: p :: i :: rest)).clients = [unused, ⟨p, i⟩] ∧
          (main b (prog :: name :: p :: i :: rest)).invocations
            = probeInvocations (prog :: name :: p :: i :: rest)
              ++ [dispatchInvocation name p i (prog :: name :: p :: i :: rest)] ∧
          ¬ StartsWith (main b (prog :: name :: p :: i :: rest)).err "Unknown command") := by
  have key : name ∈ ["create-table", "list-tables", "get-table", "delete-table",
      "modify-table", "drop-all-rows", "drop-rows-by-prefix", "wait-for-consistency-check",
      "check-consistency", "get-snapshot", "list-snapshot", "delete-snapshot"] →
      ∃ h, mapFind commands name = some h ∧ (name, h) ∈ registrations := by
    intro hname
    simp only [List.mem_cons, List.mem_singleton, List.not_mem_nil, or_false] at hname
    rcases hname with rfl | rfl | rfl | rfl | rfl | rfl | rfl | rfl | rfl | rfl | rfl | rfl
    · exact ⟨CreateTable, rfl, by simp [registrations]⟩
    · exact ⟨ListTables, rfl, by simp [registrations]⟩
    · exact ⟨GetTable, rfl, by simp [registrations]⟩
    · exact ⟨DeleteTable, rfl, by simp [registrations]⟩
    · exact ⟨ModifyTable, rfl, by simp [registrations]⟩
    · exact ⟨DropAllRows, rfl, by simp [registrations]⟩
    · exact ⟨DropRowsByPrefix, rfl, by simp [registrations]⟩
    · exact ⟨WaitForConsistencyCheck, rfl, by simp [registrations]⟩
    · exact ⟨CheckConsistency, rfl, by simp [registrations]⟩
    · exact ⟨GetSnapshot, rfl, by simp [registrations]⟩
    · exact ⟨ListSnapshots, rfl, by simp [registrations]⟩
    · exact ⟨DeleteSnapshot, rfl, by simp [registrations]⟩
  refine ⟨⟨?_, fun hname => (key hname).imp fun h hh => hh.1⟩, ?_⟩
  · rintro ⟨h, hfind⟩
    have hmem := mapFind_mem commands name h hfind
    rw [commands_eq] at hmem
    simp only [List.mem_cons, Prod.mk.injEq, List.mem_singleton, List.not_mem_nil,
      or_false] at hmem
    rcases hmem with ⟨rfl, _⟩ | ⟨rfl, _⟩ | ⟨rfl, _⟩ | ⟨rfl, _⟩ | ⟨rfl, _⟩ | ⟨rfl, _⟩ |
      ⟨rfl, _⟩ | ⟨rfl, _⟩ | ⟨rfl, _⟩ | ⟨rfl, _⟩ | ⟨rfl, _⟩ | ⟨rfl, _⟩ <;> decide
  · intro hname b prog p i rest
    obtain ⟨h, hfind, hreg⟩ := key hname
    obtain ⟨hc, hi, _, _, _⟩ := main_dispatch_fields b prog name p i rest h hfind
    exact ⟨h, hfind, hreg, hc, hi, dispatch_not_unknown b prog name p i rest h hfind⟩

/-- Witness of C4 as amended: `list-snapshot` reaches its handler. -/
theorem registered_names_reach_handler_witness :
    ∃ h, mapFind commands "list-snapshot" = some h ∧ ("list-snapshot", h) ∈ registrations ∧
      (main sampleBackend ["prog", "list-snapshot", "p", "i", "c"]).clients
        = [unused, ⟨"p", "i"⟩] ∧
      (main sampleBackend ["prog", "list-snapshot", "p", "i", "c"]).invocations
        = probeInvocations ["prog", "list-snapshot", "p", "i", "c"]
          ++ [dispatchInvocation "list-snapshot" "p" "i"
            ["prog", "list-snapshot", "p", "i", "c"]] ∧
      ¬ StartsWith (main sampleBackend ["prog", "list-snapshot", "p", "i", "c"]).err
        "Unknown command" :=
  (registered_names_reach_handler "list-snapshot").2 (by decide) sampleBackend "prog" "p" "i"
    ["c"]

/-- C4 as stated fails: `list-snapshots` is not a key of the command table;
running `main` with it and five arguments reports an unknown command and exits
with status 1 without constructing the real client or dispatching a handler. -/
theorem list_snapshots_is_unknown :
    mapFind commands "list-snapshots" = none ∧
    (main sampleBackend ["prog", "list-snapshots", "p", "i", "c"]).exit = some 1 ∧
    StartsWith (main sampleBackend ["prog", "list-snapshots", "p", "i", "c"]).err
      "Unknown command: list-snapshots" ∧
    (main sampleBackend ["prog", "list-snapshots", "p", "i", "c"]).clients = [unused] ∧
    (main sampleBackend ["prog", "list-snapshots", "p", "i", "c"]).invocations
      = probeInvocations ["prog", "list-snapshots", "p", "i", "c"] := by
  have hrun := main_unknown sampleBackend "prog" "list-snapshots" "p" "i" ["c"] rfl
  rw [hrun]
  exact ⟨rfl, rfl, usageReport_startsWith _ _ _, rfl, rfl⟩

/-! ## The aggregate usage text -/

/-- Every run of `main`, however it ends, leaves the text built by the
harvesting loop in `command_usage`. -/
theorem main_command_usage (b : Backend) (argv : List String) :
    (main b argv).command_usage = aggregateUsage := by
  simp only [main, probeAll_eq]
  repeat' split
  all_goals rfl

/-- C5, as the code has it. After the harvesting loop `command_usage` consists
of exactly one line per registered command (twelve lines, each the four-space
indent followed by that command's usage message and a newline), and the lines
appear in the iteration order of the `std::map`, that is in ascending order of
the command names: `check-consistency` first, `wait-for-consistency-check` last. -/
theorem usage_lines_in_key_order (b : Backend) (argv : List String) :
    (main b argv).command_usage = concat (commands.map usageLine) ∧
    (∀ kv, kv ∈ commands ↔ kv ∈ registrations) ∧
    commands.length = 12 ∧ registrations.length = 12 ∧
    (∀ kv ∈ commands, ∀ (b1 : Backend) (admin : TableAdmin) (argv1 : List String),
      (kv.2 b1 admin 0 argv1).status = .threw (.usage ⟨usageOf kv.2⟩)) ∧
    (commands.map Prod.fst).Pairwise (fun x y => keyLess x y = true) ∧
    commands.map Prod.fst =
      ["check-consistency", "create-table", "delete-snapshot", "delete-table",
       "drop-all-rows", "drop-rows-by-prefix", "get-snapshot", "get-table", "list-snapshot",
       "list-tables", "modify-table", "wait-for-consistency-check"] ∧
    commands.map usageLine =
      ["    check-consistency: <project-id> <instanse-id> <table-id> <consistency_token\n",
       "    create-table: <project-id> <instanse-id> <table-id>\n",
       "    delete-snapshot: <project-id> <instanse-id> <cluster-id> <snapshot-id\n",
       "    delete-table: <project-id> <instanse-id> <table-id>\n",
       "    drop-all-rows: <project-id> <instanse-id> <table-id>\n",
       "    drop-rows-by-prefix: <project-id> <instanse-id> <table-id>\n",
       "    get-snapshot: <project-id> <instanse-id> <cluster-id> <snapshot-id\n",
       "    get-table: <project-id> <instanse-id> <table-id>\n",
       "    list-snapshot: <project-id> <instanse-id> <cluster-id>\n",
       "    list-tables: <project-id> <instanse-id>\n",
       "    modify-table: <project-id> <instanse-id> <table-id>\n",
       "    wait-for-consistency-check: <project-id> <instanse-id> <table-id>\n"] := by
  refine ⟨main_command_usage b argv, ?_, by decide, by decide, ?_, by decide, by decide,
    by decide⟩
  · intro kv
    rw [commands_eq]
    simp only [registrations, List.mem_cons, List.mem_singleton, List.not_mem_nil, or_false]
    tauto
  · intro kv hkv b1 admin argv1
    rw [handler_wrong_count kv hkv b1 admin 0 argv1 (expectedArgc_ne_zero kv.1)]
    rfl

/-- C5 as stated fails: the text `main` builds is not the one with the lines in
the order of the initializer list; it begins with the line of
`check-consistency`, not with that of `create-table`. -/
theorem usage_not_in_registration_order :
    (main sampleBackend ["prog"]).command_usage ≠ registrationOrderUsage ∧
    StartsWith (main sampleBackend ["prog"]).command_usage "    check-consistency: " ∧
    ¬ StartsWith (main sampleBackend ["prog"]).command_usage "    create-table: " ∧
    StartsWith registrationOrderUsage "    create-table: " := by
  rw [main_command_usage]
  decide

end TableAdminSnippets
